import Mathlib

/-!
# ReconSpec — Analysis Orchestration Engine: a shallow embedding

This file embeds the core of the ReconSpec server (the analysis
orchestration engine, its response validators, the LLM error
normalizer and the scan route state machine) in Lean 4 and proves
properties of the embedded definitions.

Sources embedded:
* `server/src/analysis/responseParser.ts` — `parsePhaseAResponse`,
  `parseAPISummaryResponse`, `parseDeepDiveResponse`, `toPotentialVulnerability`
* `server/src/analysis/engine.ts` — `analyzeEndpoint`, `generateAPISummary`,
  `analyzeSpec`, `findEndpointById`, `generateDeepDive`
* `server/src/llm/gateway.ts` — `normalizeError`
* `server/src/routes/analyze.ts` — the `POST /api/analyze` handler and its
  `currentAnalysis` run flag
* `server/src/knowledge/owasp/index.ts` — `getAllCategoryIds`

Modelling conventions:
* JavaScript values flowing out of `JSON.parse` are modelled by the
  inductive type `Json`; `undefined` (the result of reading a missing
  property) is the extra constructor `Json.undefined`.
* JSON numbers are modelled as integers (`Int`); fractional and exponent
  number literals are outside the model, the parser rejects them.
* Fallible TypeScript code returns `Except String α` in place of the
  `\x7b success, data?, error? \x7d` result objects; thrown-and-caught
  exceptions become `.error msg` with the caught message.
* The LLM gateway is an external collaborator: its reply to each call is
  a parameter of type `Except String String` (`.error` = rejected
  promise whose message is caught, `.ok` = the reply text).
* The only true concurrency in the source is the fan-out of one window
  of endpoint calls; the resulting nondeterminism in event order is
  modelled by a schedule parameter giving, for every window, the order
  in which its calls complete (any permutation of the window).
-/

set_option maxRecDepth 10000

namespace ReconSpec

/-! ## JavaScript JSON values -/

/-- A JavaScript value as produced by `JSON.parse`, plus `undefined`
(the value of a missing object property). Numbers are modelled as
integers. -/
inductive Json where
  | null
  | undefined
  | bool (b : Bool)
  | num (n : Int)
  | str (s : String)
  | arr (elems : List Json)
  | obj (fields : List (String × Json))

/-- Last-binding lookup in an object literal: `JSON.parse` keeps the last
occurrence of a duplicated key, so property access returns the last
binding. -/
def lookupLast : List (String × Json) → String → Option Json
  | [], _ => none
  | (k, v) :: rest, key =>
    match lookupLast rest key with
    | some r => some r
    | none => if k = key then some v else none

/-- JavaScript property access `v[k]` as used by the validators: reading a
property of `null`/`undefined` throws a `TypeError` (caught by the
enclosing `try` in the source, hence `.error`); reading a missing
property of anything else yields `undefined`. -/
def jsAccess (v : Json) (k : String) : Except String Json :=
  match v with
  | .null => .error "Cannot read properties of null"
  | .undefined => .error "Cannot read properties of undefined"
  | .obj kvs => .ok ((lookupLast kvs k).getD .undefined)
  | _ => .ok .undefined

/-- Total property read, used at places where the source has already
dereferenced the same object successfully (so no `TypeError` can occur). -/
def jsFieldD (v : Json) (k : String) : Json :=
  match v with
  | .obj kvs => (lookupLast kvs k).getD .undefined
  | _ => .undefined

/-! ## Code-fence stripping (`responseParser.ts` lines 49-52)

`jsonResponse.replace(/\x60\x60\x60json\n?/g, "").replace(/\x60\x60\x60\n?/g, "").trim()`:
a global, left-to-right, non-overlapping deletion of every occurrence of
the fence markers anywhere in the text, then a whitespace trim. -/

/-- The backtick character. -/
def btick : Char := Char.ofNat 96

/-- First `replace` pass: delete every occurrence of three backticks
followed by `json` and an optional newline, scanning left to right. -/
def removeFenceJson : List Char → List Char
  | c1 :: c2 :: c3 :: 'j' :: 's' :: 'o' :: 'n' :: '\n' :: rest =>
    if c1 = btick ∧ c2 = btick ∧ c3 = btick then removeFenceJson rest
    else c1 :: removeFenceJson (c2 :: c3 :: 'j' :: 's' :: 'o' :: 'n' :: '\n' :: rest)
  | c1 :: c2 :: c3 :: 'j' :: 's' :: 'o' :: 'n' :: rest =>
    if c1 = btick ∧ c2 = btick ∧ c3 = btick then removeFenceJson rest
    else c1 :: removeFenceJson (c2 :: c3 :: 'j' :: 's' :: 'o' :: 'n' :: rest)
  | c :: rest => c :: removeFenceJson rest
  | [] => []
  termination_by structural l => l

/-- Second `replace` pass: delete every occurrence of three backticks and
an optional following newline, scanning left to right. -/
def removeFence : List Char → List Char
  | c1 :: c2 :: c3 :: '\n' :: rest =>
    if c1 = btick ∧ c2 = btick ∧ c3 = btick then removeFence rest
    else c1 :: removeFence (c2 :: c3 :: '\n' :: rest)
  | c1 :: c2 :: c3 :: rest =>
    if c1 = btick ∧ c2 = btick ∧ c3 = btick then removeFence rest
    else c1 :: removeFence (c2 :: c3 :: rest)
  | c :: rest => c :: removeFence rest
  | [] => []
  termination_by structural l => l

/-- ASCII whitespace recognised by the model of `String.prototype.trim`. -/
def isWsChar (c : Char) : Bool :=
  c == ' ' || c == '\t' || c == '\n' || c == '\r'

/-- `trim()` on a character list: drop leading and trailing whitespace. -/
def jsTrimList (l : List Char) : List Char :=
  ((l.dropWhile isWsChar).reverse.dropWhile isWsChar).reverse

/-- JavaScript `s.trim()` (restricted to ASCII whitespace). -/
def jsTrim (s : String) : String :=
  ⟨jsTrimList s.data⟩

/-- The complete fence-stripping pipeline applied by every parser before
`JSON.parse`. -/
def stripFences (s : String) : String :=
  jsTrim ⟨removeFence (removeFenceJson s.data)⟩

/-! ## A model of `JSON.parse`

A fuel-indexed recursive-descent parser producing `Json`. It accepts the
JSON grammar except that numbers must be integer literals (fractional and
exponent forms are outside the model). -/

/-- Skip JSON insignificant whitespace. -/
def skipWs : List Char → List Char
  | c :: rest =>
    if c = ' ' ∨ c = '\n' ∨ c = '\t' ∨ c = '\r' then skipWs rest else c :: rest
  | [] => []

/-- Parse the body of a string literal after the opening quote; returns the
string contents and the remainder after the closing quote. -/
def parseStrAux : List Char → Except String (List Char × List Char)
  | [] => .error "Unterminated string in JSON"
  | c :: rest =>
    if c = '"' then .ok ([], rest)
    else if c = '\\' then
      match rest with
      | [] => .error "Unterminated string in JSON"
      | e :: rest2 =>
        let ch? : Option Char :=
          if e = '"' then some '"'
          else if e = '\\' then some '\\'
          else if e = '/' then some '/'
          else if e = 'n' then some '\n'
          else if e = 't' then some '\t'
          else if e = 'r' then some '\r'
          else if e = 'b' then some (Char.ofNat 8)
          else if e = 'f' then some (Char.ofNat 12)
          else none
        match ch? with
        | some ch =>
          match parseStrAux rest2 with
          | .ok (a, r) => .ok (ch :: a, r)
          | .error m => .error m
        | none => .error "Unsupported escape in JSON string"
    else
      match parseStrAux rest with
      | .ok (a, r) => .ok (c :: a, r)
      | .error m => .error m

/-- Accumulate decimal digits. -/
def digitsAux : List Char → Nat → Nat × List Char
  | c :: rest, acc =>
    if c.isDigit then digitsAux rest (acc * 10 + (c.toNat - 48)) else (acc, c :: rest)
  | [], acc => (acc, [])

/-- Parse an integer literal (optional minus sign, one or more digits);
fractional and exponent tails are rejected. -/
def parseNum (l : List Char) : Except String (Int × List Char) :=
  let (neg, l') : Bool × List Char :=
    match l with
    | '-' :: rest => (true, rest)
    | _ => (false, l)
  match l' with
  | c :: _ =>
    if c.isDigit then
      let (n, rest) := digitsAux l' 0
      match rest with
      | d :: _ =>
        if d = '.' ∨ d = 'e' ∨ d = 'E' then
          .error "Non-integer number literals are outside the model"
        else .ok (if neg then -(n : Int) else (n : Int), rest)
      | [] => .ok (if neg then -(n : Int) else (n : Int), [])
    else .error "Unexpected token in JSON"
  | [] => .error "Unexpected end of JSON input"

mutual

/-- Parse one JSON value. -/
def parseVal : Nat → List Char → Except String (Json × List Char)
  | 0, _ => .error "JSON nesting too deep for fuel"
  | fuel + 1, l =>
    match skipWs l with
    | [] => .error "Unexpected end of JSON input"
    | 'n' :: 'u' :: 'l' :: 'l' :: rest => .ok (.null, rest)
    | 't' :: 'r' :: 'u' :: 'e' :: rest => .ok (.bool true, rest)
    | 'f' :: 'a' :: 'l' :: 's' :: 'e' :: rest => .ok (.bool false, rest)
    | '"' :: rest =>
      match parseStrAux rest with
      | .ok (chars, r) => .ok (.str ⟨chars⟩, r)
      | .error m => .error m
    | '[' :: rest =>
      (match skipWs rest with
      | ']' :: r => .ok (.arr [], r)
      | other =>
        match parseArrItems fuel other with
        | .ok (items, r) => .ok (.arr items, r)
        | .error m => .error m)
    | c :: rest =>
      if c = Char.ofNat 123 then
        match skipWs rest with
        | c2 :: r =>
          if c2 = Char.ofNat 125 then .ok (.obj [], r)
          else
            (match parseObjItems fuel (c2 :: r) with
            | .ok (fields, r2) => .ok (.obj fields, r2)
            | .error m => .error m)
        | [] => .error "Unexpected end of JSON input"
      else
        match parseNum (c :: rest) with
        | .ok (n, r) => .ok (.num n, r)
        | .error m => .error m

/-- Parse the comma-separated items of an array, positioned at the first
item; consumes the closing bracket. -/
def parseArrItems : Nat → List Char → Except String (List Json × List Char)
  | 0, _ => .error "JSON nesting too deep for fuel"
  | fuel + 1, l =>
    match parseVal fuel l with
    | .error m => .error m
    | .ok (v, rest) =>
      match skipWs rest with
      | ',' :: r =>
        (match parseArrItems fuel r with
        | .ok (items, r2) => .ok (v :: items, r2)
        | .error m => .error m)
      | ']' :: r => .ok ([v], r)
      | _ => .error "Expected comma or closing bracket in JSON array"

/-- Parse the comma-separated members of an object, positioned at the
first member; consumes the closing brace. -/
def parseObjItems : Nat → List Char → Except String (List (String × Json) × List Char)
  | 0, _ => .error "JSON nesting too deep for fuel"
  | fuel + 1, l =>
    match skipWs l with
    | '"' :: rest =>
      (match parseStrAux rest with
      | .error m => .error m
      | .ok (key, rest2) =>
        match skipWs rest2 with
        | ':' :: rest3 =>
          (match parseVal fuel rest3 with
          | .error m => .error m
          | .ok (v, rest4) =>
            match skipWs rest4 with
            | ',' :: r =>
              (match parseObjItems fuel r with
              | .ok (fields, r2) => .ok ((⟨key⟩, v) :: fields, r2)
              | .error m => .error m)
            | c :: r =>
              if c = Char.ofNat 125 then .ok ([(⟨key⟩, v)], r)
              else .error "Expected comma or closing brace in JSON object"
            | [] => .error "Unexpected end of JSON input")
        | _ => .error "Expected colon in JSON object")
    | _ => .error "Expected string key in JSON object"

end

/-- The message of a `JSON.parse` `SyntaxError`. The real text is
engine-specific; the model uses one fixed (non-empty) literal for every
syntax failure. -/
def jsonSyntaxErrorMsg : String := "Unexpected token in JSON"

/-- The model of `JSON.parse`: parse one value and require only
whitespace after it. -/
def jsonParse (s : String) : Except String Json :=
  match parseVal (s.length + 1) s.data with
  | .error _ => .error jsonSyntaxErrorMsg
  | .ok (j, rest) =>
    match skipWs rest with
    | [] => .ok j
    | _ => .error jsonSyntaxErrorMsg

/-! ## Knowledge Provider (`knowledge/owasp/index.ts`)

The category data files record an `id` and descriptive text; only the
ids matter to validation. `OWASP_CATEGORIES` lists API1 through API10 in
order (the ids of categories whose data files are present in the sources
are confirmed there; the remaining ids are fixed by the imports and
comments of `index.ts`). -/

/-- One OWASP API Top 10 category; descriptive fields other than the id
play no role in validation and are reduced to the display name. -/
structure OWASPCategory where
  id : String
  name : String

/-- All OWASP API Top 10 categories, in the order of `index.ts`. -/
def OWASP_CATEGORIES : List OWASPCategory :=
  [ ⟨"API1", "Broken Object Level Authorization"⟩,
    ⟨"API2", "Broken Authentication"⟩,
    ⟨"API3", "Broken Object Property Level Authorization"⟩,
    ⟨"API4", "Unrestricted Resource Consumption"⟩,
    ⟨"API5", "Broken Function Level Authorization"⟩,
    ⟨"API6", "Unrestricted Access to Sensitive Business Flows"⟩,
    ⟨"API7", "Server Side Request Forgery"⟩,
    ⟨"API8", "Security Misconfiguration"⟩,
    ⟨"API9", "Improper Inventory Management"⟩,
    ⟨"API10", "Unsafe Consumption of APIs"⟩ ]

/-- `getAllCategoryIds()`: the allow-list of valid category identifiers. -/
def getAllCategoryIds : List String :=
  OWASP_CATEGORIES.map (·.id)

/-! ## Spec data model (`shared/src/models/endpoint.ts`)

Only the fields the analysis engine reads are carried; parameters and
request-body properties are reduced to their names, the one thing
validation consults. -/

/-- One declared parameter of an endpoint (reduced to its name). -/
structure ParameterDetail where
  name : String

/-- One exposed request-body property (reduced to its name). -/
structure PropertyDetail where
  name : String

/-- Request body descriptor (reduced to its exposed property list). -/
structure RequestBodyDetail where
  properties : List PropertyDetail

/-- A deep-dive test scenario. -/
structure TestScenario where
  context : String
  legitimateRequest : String
  maliciousPayload : String
  explanation : String

/-- A sample payload attached to a deep dive. -/
structure PayloadExample where
  label : String
  contentType : String
  body : String
  description : String

/-- Validated Phase B deep-dive data. -/
structure DeepDiveResponse where
  overview : String
  testScenarios : List TestScenario
  tools : List String
  samplePayload : Option PayloadExample

/-- A finding attached to an endpoint after Phase A analysis. -/
structure PotentialVulnerability where
  id : String
  name : String
  categories : List String
  relevanceScore : Int
  affectedParams : List String
  deepDive : Option DeepDiveResponse

/-- A per-endpoint assessment. -/
structure SecurityAssessment where
  vulnerabilities : List PotentialVulnerability
  analyzedAt : String

/-- One HTTP operation of the spec (fields the engine reads). -/
structure EndpointDetail where
  id : String
  method : String
  path : String
  parameters : List ParameterDetail
  requestBody : Option RequestBodyDetail
  assessment : Option SecurityAssessment

/-- A tag group of the parsed spec. -/
structure TagGroup where
  name : String
  endpoints : List EndpointDetail

/-- The parsed OpenAPI spec (fields the engine reads). -/
structure ParsedSpec where
  title : String
  description : String
  tagGroups : List TagGroup

/-! ## Phase A response validation (`responseParser.ts` lines 43-141) -/

/-- A validated Phase A vulnerability entry (`PhaseAVulnerability`). -/
structure PhaseAVulnerability where
  name : String
  categories : List String
  relevanceScore : Int
  affectedParams : List String
  summary : String

/-- A validated Phase A response (`PhaseAResponse`). -/
structure PhaseAResponse where
  vulnerabilities : List PhaseAVulnerability
  endpointSummary : String

/-- The endpoint parameter-name set used by the `affectedParams` filter
(lines 67-70): declared parameter names united with request-body
property names. Represented as a list; only membership is consulted. -/
def endpointParamNames (e : EndpointDetail) : List String :=
  e.parameters.map (·.name) ++
    (match e.requestBody with
     | some rb => rb.properties.map (·.name)
     | none => [])

/-- Lines 109-114: the stored relevance score of a raw vulnerability —
default 50 when the field is absent or not a number, otherwise
`Math.max(0, Math.min(100, score))`. -/
def clampScore (v : Json) : Int :=
  match jsFieldD v "relevanceScore" with
  | .num n => max 0 (min 100 n)
  | _ => 50

/-- Lines 116-124: the stored affected-parameter list — coerced to empty
when absent or not an array, then filtered to names present on the
endpoint (the `Set.has` test succeeds only for strings in the set). -/
def filterParams (paramNames : List String) (v : Json) : List String :=
  match jsFieldD v "affectedParams" with
  | .arr ps =>
    ps.filterMap (fun p =>
      match p with
      | .str s => if s ∈ paramNames then some s else none
      | _ => none)
  | _ => []

/-- Lines 99-107: check each element of the categories array against the
allow-list (`includes` compares with `===`, so a non-string element is
never a member) and collect the validated identifiers. -/
def checkCats (validIds : List String) (i : Nat) : List Json → Except String (List String)
  | [] => .ok []
  | c :: cs =>
    match c with
    | .str s =>
      if s ∈ validIds then
        match checkCats validIds i cs with
        | .ok rest => .ok (s :: rest)
        | .error m => .error m
      else .error s!"Vulnerability {i + 1}: unknown categoryId"
    | _ => .error s!"Vulnerability {i + 1}: unknown categoryId"

/-- Lines 72-132: validation of the `i`-th raw vulnerability object, in
source order: name, categories (array, non-empty, all known), relevance
score (defaulted/clamped, never an error), affected params (coerced and
filtered, never an error), summary. -/
def checkVuln (validIds paramNames : List String) (i : Nat) (v : Json) :
    Except String PhaseAVulnerability :=
  match jsAccess v "name" with
  | .error m => .error m
  | .ok nameJ =>
    match nameJ with
    | .str n =>
      if jsTrim n = "" then .error s!"Vulnerability {i + 1}: missing or invalid name"
      else
        match jsFieldD v "categories" with
        | .arr cats =>
          if cats.isEmpty then
            .error s!"Vulnerability {i + 1}: categories array cannot be empty"
          else
            match checkCats validIds i cats with
            | .error m => .error m
            | .ok catIds =>
              match jsFieldD v "summary" with
              | .str s =>
                if jsTrim s = "" then
                  .error s!"Vulnerability {i + 1}: missing or invalid summary"
                else
                  .ok { name := n, categories := catIds,
                        relevanceScore := clampScore v,
                        affectedParams := filterParams paramNames v,
                        summary := s }
              | _ => .error s!"Vulnerability {i + 1}: missing or invalid summary"
        | _ => .error s!"Vulnerability {i + 1}: missing or invalid categories array"
    | _ => .error s!"Vulnerability {i + 1}: missing or invalid name"

/-- The 1-based-indexed loop over the raw vulnerabilities array
(lines 72-132); the first failing entry fails the whole response. -/
def checkVulns (validIds paramNames : List String) : Nat → List Json →
    Except String (List PhaseAVulnerability)
  | _, [] => .ok []
  | i, v :: vs =>
    match checkVuln validIds paramNames i v with
    | .error m => .error m
    | .ok out =>
      match checkVulns validIds paramNames (i + 1) vs with
      | .error m => .error m
      | .ok outs => .ok (out :: outs)

/-- `parsePhaseAResponse(jsonResponse, endpoint)`: strip code fences,
`JSON.parse`, require a `vulnerabilities` array and a string
`endpointSummary`, then validate every vulnerability. The `catch` of the
source maps any thrown error to a failure result, which the embedding
folds into `.error`. -/
def parsePhaseAResponse (jsonResponse : String) (endpoint : EndpointDetail) :
    Except String PhaseAResponse :=
  match jsonParse (stripFences jsonResponse) with
  | .error m => .error m
  | .ok parsed =>
    match jsAccess parsed "vulnerabilities" with
    | .error m => .error m
    | .ok vJ =>
      match vJ with
      | .arr vulns =>
        match jsFieldD parsed "endpointSummary" with
        | .str es =>
          match checkVulns getAllCategoryIds (endpointParamNames endpoint) 0 vulns with
          | .error m => .error m
          | .ok outs => .ok { vulnerabilities := outs, endpointSummary := es }
        | _ => .error "Missing or invalid endpointSummary"
      | _ => .error "Missing or invalid vulnerabilities array"

/-- The raw vulnerabilities array of a raw response, as the source reads
it (lines 54-57): parse the stripped text and require the
`vulnerabilities` property to be an array. Used to state properties of
`parsePhaseAResponse` over the raw input. -/
def vulnsOf (s : String) : Option (List Json) :=
  match jsonParse (stripFences s) with
  | .ok parsed =>
    match jsAccess parsed "vulnerabilities" with
    | .ok (.arr vulns) => some vulns
    | _ => none
  | .error _ => none

/-- A raw vulnerability whose categories field is missing, not an array,
an empty array, or contains an element that is not a known category
identifier string. This is the fail-closed condition of the claim. -/
def badCategories (validIds : List String) (v : Json) : Bool :=
  match jsFieldD v "categories" with
  | .arr cs =>
    cs.isEmpty ||
      cs.any (fun c =>
        match c with
        | .str s => decide (s ∉ validIds)
        | _ => true)
  | _ => true

/-! ### Characterization of the per-vulnerability validation -/

theorem checkCats_ok {ids : List String} {i : Nat} {cs : List Json} {out : List String}
    (h : checkCats ids i cs = .ok out) :
    ∀ c ∈ cs, ∃ s, c = Json.str s ∧ s ∈ ids := by
  induction cs generalizing out with
  | nil => intro c hc; cases hc
  | cons c cs ih =>
    intro c' hc'
    unfold checkCats at h
    cases c with
    | str s =>
      by_cases hs : s ∈ ids
      · simp only [hs, if_pos] at h
        cases hrec : checkCats ids i cs with
        | ok rest =>
          rw [hrec] at h
          rcases List.mem_cons.mp hc' with rfl | hmem
          · exact ⟨s, rfl, hs⟩
          · exact ih hrec c' hmem
        | error m => rw [hrec] at h; cases h
      · simp only [hs, if_neg, not_false_iff] at h
        cases h
    | null => cases h
    | undefined => cases h
    | bool b => cases h
    | num n => cases h
    | arr l => cases h
    | obj l => cases h

theorem checkVuln_ok {ids pn : List String} {i : Nat} {v : Json} {out : PhaseAVulnerability}
    (h : checkVuln ids pn i v = .ok out) :
    (∃ cats, jsFieldD v "categories" = .arr cats ∧ cats ≠ [] ∧
      ∀ c ∈ cats, ∃ s, c = Json.str s ∧ s ∈ ids) ∧
    out.relevanceScore = clampScore v ∧
    out.affectedParams = filterParams pn v := by
  unfold checkVuln at h
  cases h1 : jsAccess v "name" with
  | error m => rw [h1] at h; cases h
  | ok nameJ =>
    rw [h1] at h
    cases nameJ with
    | str n =>
      by_cases hn : jsTrim n = ""
      · simp only [hn, if_pos] at h; cases h
      · simp only [hn, if_neg, not_false_iff] at h
        cases h2 : jsFieldD v "categories" with
        | arr cats =>
          rw [h2] at h
          by_cases he : cats.isEmpty
          · simp only [he, if_pos] at h; cases h
          · simp only [he, if_neg, not_false_iff] at h
            cases h3 : checkCats ids i cats with
            | error m => rw [h3] at h; cases h
            | ok catIds =>
              rw [h3] at h
              cases h4 : jsFieldD v "summary" with
              | str s =>
                rw [h4] at h
                by_cases hs : jsTrim s = ""
                · simp only [hs, if_pos] at h; cases h
                · simp only [hs, if_neg, not_false_iff] at h
                  cases h
                  refine ⟨⟨cats, by simp [h2], ?_, checkCats_ok h3⟩, rfl, rfl⟩
                  intro hnil
                  rw [hnil] at he
                  exact he rfl
              | null => rw [h4] at h; cases h
              | undefined => rw [h4] at h; cases h
              | bool b => rw [h4] at h; cases h
              | num m => rw [h4] at h; cases h
              | arr l => rw [h4] at h; cases h
              | obj l => rw [h4] at h; cases h
        | null => rw [h2] at h; cases h
        | undefined => rw [h2] at h; cases h
        | bool b => rw [h2] at h; cases h
        | num m => rw [h2] at h; cases h
        | str s => rw [h2] at h; cases h
        | obj l => rw [h2] at h; cases h
    | null => cases h
    | undefined => cases h
    | bool b => cases h
    | num m => cases h
    | arr l => cases h
    | obj l => cases h

/-- A vulnerability with bad categories can never validate. -/
theorem checkVuln_bad {ids pn : List String} {i : Nat} {v : Json}
    (hbad : badCategories ids v = true) :
    ∃ m, checkVuln ids pn i v = .error m := by
  cases hres : checkVuln ids pn i v with
  | error m => exact ⟨m, rfl⟩
  | ok out =>
    exfalso
    obtain ⟨⟨cats, hcats, hne, hall⟩, -, -⟩ := checkVuln_ok hres
    unfold badCategories at hbad
    rw [hcats] at hbad
    rcases Bool.or_eq_true_iff.mp hbad with hemp | hany
    · exact hne (List.isEmpty_iff.mp hemp)
    · obtain ⟨c, hc, hcbad⟩ := List.any_eq_true.mp hany
      obtain ⟨s, rfl, hs⟩ := hall c hc
      simp only [decide_eq_true_eq] at hcbad
      exact hcbad hs

/-- If any raw vulnerability in the list has bad categories, the loop
fails regardless of the other entries. -/
theorem checkVulns_bad {ids pn : List String} {v : Json} {vs : List Json}
    (hv : v ∈ vs) (hbad : badCategories ids v = true) :
    ∀ i, ∃ m, checkVulns ids pn i vs = .error m := by
  induction vs with
  | nil => cases hv
  | cons u us ih =>
    intro i
    rcases List.mem_cons.mp hv with rfl | hmem
    · obtain ⟨m, hm⟩ := @checkVuln_bad _ pn i _ hbad
      exact ⟨m, by unfold checkVulns; rw [hm]⟩
    · cases hu : checkVuln ids pn i u with
      | error m => exact ⟨m, by unfold checkVulns; rw [hu]⟩
      | ok out =>
        obtain ⟨m, hm⟩ := ih hmem (i + 1)
        exact ⟨m, by unfold checkVulns; rw [hu, hm]⟩

/-- Every vulnerability in a validated output list comes from a
successful `checkVuln` run. -/
theorem checkVulns_ok_out {ids pn : List String} {vs : List Json}
    {outs : List PhaseAVulnerability} :
    ∀ {i}, checkVulns ids pn i vs = .ok outs →
      ∀ out ∈ outs, ∃ j v, checkVuln ids pn j v = .ok out := by
  induction vs generalizing outs with
  | nil =>
    intro i h out hout
    unfold checkVulns at h
    cases h
    cases hout
  | cons u us ih =>
    intro i h out hout
    unfold checkVulns at h
    cases hu : checkVuln ids pn i u with
    | error m => rw [hu] at h; cases h
    | ok o =>
      rw [hu] at h
      cases hrec : checkVulns ids pn (i + 1) us with
      | error m => rw [hrec] at h; cases h
      | ok os =>
        rw [hrec] at h
        cases h
        rcases List.mem_cons.mp hout with rfl | hmem
        · exact ⟨i, u, hu⟩
        · exact ih hrec out hmem

/-- A successful `parsePhaseAResponse` run's stored vulnerabilities are
exactly a successful `checkVulns` output for the endpoint's name set. -/
theorem parsePhaseAResponse_ok {s : String} {e : EndpointDetail} {d : PhaseAResponse}
    (h : parsePhaseAResponse s e = .ok d) :
    ∃ vulns, vulnsOf s = some vulns ∧
      checkVulns getAllCategoryIds (endpointParamNames e) 0 vulns = .ok d.vulnerabilities := by
  unfold parsePhaseAResponse at h
  cases h1 : jsonParse (stripFences s) with
  | error m => simp only [h1] at h; cases h
  | ok parsed =>
    simp only [h1] at h
    cases h2 : jsAccess parsed "vulnerabilities" with
    | error m => simp only [h2] at h; cases h
    | ok vJ =>
      simp only [h2] at h
      cases vJ with
      | arr vulns =>
        cases h3 : jsFieldD parsed "endpointSummary" with
        | str es =>
          simp only [h3] at h
          cases h4 : checkVulns getAllCategoryIds (endpointParamNames e) 0 vulns with
          | error m => simp only [h4] at h; cases h
          | ok outs =>
            simp only [h4] at h
            cases h
            exact ⟨vulns, by simp [vulnsOf, h1, h2], h4⟩
        | null => simp only [h3] at h; cases h
        | undefined => simp only [h3] at h; cases h
        | bool b => simp only [h3] at h; cases h
        | num m => simp only [h3] at h; cases h
        | arr l => simp only [h3] at h; cases h
        | obj l => simp only [h3] at h; cases h
      | null => simp at h
      | undefined => simp at h
      | bool b => simp at h
      | num m => simp at h
      | str s2 => simp at h
      | obj l => simp at h

/-- The clamp always lands in `[0, 100]`. -/
theorem clampScore_bounds (v : Json) : 0 ≤ clampScore v ∧ clampScore v ≤ 100 := by
  unfold clampScore
  cases jsFieldD v "relevanceScore" with
  | num n =>
    refine ⟨le_max_left 0 _, max_le (by norm_num) (min_le_left 100 n)⟩
  | null => exact ⟨by norm_num, by norm_num⟩
  | undefined => exact ⟨by norm_num, by norm_num⟩
  | bool b => exact ⟨by norm_num, by norm_num⟩
  | str s => exact ⟨by norm_num, by norm_num⟩
  | arr l => exact ⟨by norm_num, by norm_num⟩
  | obj l => exact ⟨by norm_num, by norm_num⟩

/-- The affected-parameter filter only lets endpoint names through. -/
theorem filterParams_subset (pn : List String) (v : Json) :
    ∀ p ∈ filterParams pn v, p ∈ pn := by
  intro p hp
  unfold filterParams at hp
  cases hf : jsFieldD v "affectedParams" with
  | arr ps =>
    rw [hf] at hp
    obtain ⟨a, -, ha⟩ := List.mem_filterMap.mp hp
    cases a with
    | str s =>
      by_cases hs : s ∈ pn
      · simp only [hs, if_pos] at ha
        cases ha
        exact hs
      · simp [hs] at ha
    | null => cases ha
    | undefined => cases ha
    | bool b => cases ha
    | num n => cases ha
    | arr l => cases ha
    | obj l => cases ha
  | null => rw [hf] at hp; cases hp
  | undefined => rw [hf] at hp; cases hp
  | bool b => rw [hf] at hp; cases hp
  | num n => rw [hf] at hp; cases hp
  | str s => rw [hf] at hp; cases hp
  | obj l => rw [hf] at hp; cases hp

/-- C1. For every raw model response to a per-endpoint scan, if any
finding in the parsed `vulnerabilities` array carries a category
identifier outside the Knowledge Provider allow-list, or an empty or
non-array `categories` field, then `parsePhaseAResponse` fails for the
entire response: no finding from that response is accepted. -/
theorem c1_unknown_category_rejects_response
    (s : String) (e : EndpointDetail) (vs : List Json) (v : Json)
    (hvs : vulnsOf s = some vs) (hv : v ∈ vs)
    (hbad : badCategories getAllCategoryIds v = true) :
    ∃ m, parsePhaseAResponse s e = .error m := by
  cases hres : parsePhaseAResponse s e with
  | error m => exact ⟨m, rfl⟩
  | ok d =>
    exfalso
    obtain ⟨vulns, hvulns, hcheck⟩ := parsePhaseAResponse_ok hres
    rw [hvs] at hvulns
    cases hvulns
    obtain ⟨m, hm⟩ := checkVulns_bad hv hbad 0
    rw [hm] at hcheck
    cases hcheck

/-- Witness for C1: a response whose single finding names the unknown
category `API99` is rejected wholesale. -/
theorem c1_witness :
    ∃ m, parsePhaseAResponse
      "\x7b\"vulnerabilities\":[\x7b\"name\":\"n\",\"categories\":[\"API99\"],\"summary\":\"s\"\x7d],\"endpointSummary\":\"es\"\x7d"
      ⟨"ep1", "get", "/users", [⟨"userId"⟩], none, none⟩ = .error m :=
  c1_unknown_category_rejects_response _ _
    [Json.obj [("name", .str "n"), ("categories", .arr [.str "API99"]),
               ("summary", .str "s")]]
    (Json.obj [("name", .str "n"), ("categories", .arr [.str "API99"]),
               ("summary", .str "s")])
    (by rfl) (by simp) (by rfl)

/-- C2. Every finding accepted by `parsePhaseAResponse` stores a
relevance score in `[0, 100]`; the stored score of a validated raw
finding is exactly `clampScore`, which is `max 0 (min 100 n)` for a
numeric raw field and the default `50` for an absent or non-numeric
one. -/
theorem c2_relevance_score_clamped :
    (∀ (s : String) (e : EndpointDetail) (d : PhaseAResponse),
      parsePhaseAResponse s e = .ok d →
        ∀ v ∈ d.vulnerabilities, 0 ≤ v.relevanceScore ∧ v.relevanceScore ≤ 100)
    ∧ (∀ (ids pn : List String) (i : Nat) (vraw : Json) (out : PhaseAVulnerability),
        checkVuln ids pn i vraw = .ok out → out.relevanceScore = clampScore vraw)
    ∧ (∀ (vraw : Json) (n : Int), jsFieldD vraw "relevanceScore" = Json.num n →
        clampScore vraw = max 0 (min 100 n))
    ∧ (∀ vraw : Json, (∀ n : Int, jsFieldD vraw "relevanceScore" ≠ Json.num n) →
        clampScore vraw = 50) := by
  refine ⟨?_, ?_, ?_, ?_⟩
  · intro s e d h v hv
    obtain ⟨vulns, -, hcheck⟩ := parsePhaseAResponse_ok h
    obtain ⟨j, vr, hcv⟩ := checkVulns_ok_out hcheck v hv
    obtain ⟨-, hscore, -⟩ := checkVuln_ok hcv
    rw [hscore]
    exact clampScore_bounds vr
  · intro ids pn i vraw out h
    exact (checkVuln_ok h).2.1
  · intro vraw n h
    unfold clampScore
    rw [h]
  · intro vraw h
    unfold clampScore
    cases hf : jsFieldD vraw "relevanceScore" with
    | num n => exact absurd hf (h n)
    | null => rfl
    | undefined => rfl
    | bool b => rfl
    | str s => rfl
    | arr l => rfl
    | obj l => rfl

/-- Witness for C2: a raw score of 140 is stored as 100 and stays in
range; the name `ssn` is not among the endpoint parameters, so the
accepted finding demonstrates a fully validated response. -/
theorem c2_witness :
    ∀ v ∈ (PhaseAResponse.mk [⟨"n", ["API2"], 100, ["userId"], "s"⟩] "es").vulnerabilities,
      0 ≤ v.relevanceScore ∧ v.relevanceScore ≤ 100 :=
  c2_relevance_score_clamped.1
    "\x7b\"vulnerabilities\":[\x7b\"name\":\"n\",\"categories\":[\"API2\"],\"relevanceScore\":140,\"affectedParams\":[\"userId\",\"ssn\"],\"summary\":\"s\"\x7d],\"endpointSummary\":\"es\"\x7d"
    ⟨"ep1", "get", "/users", [⟨"userId"⟩], none, none⟩ _ (by rfl)

/-- C3. Every affected-parameter name stored by `parsePhaseAResponse`
belongs to the endpoint's parameter/request-body name set; the stored
list of a validated raw finding is exactly `filterParams` (a silent
filter), and an absent or non-array raw field is coerced to the empty
list. -/
theorem c3_affected_params_filtered :
    (∀ (s : String) (e : EndpointDetail) (d : PhaseAResponse),
      parsePhaseAResponse s e = .ok d →
        ∀ v ∈ d.vulnerabilities, ∀ p ∈ v.affectedParams, p ∈ endpointParamNames e)
    ∧ (∀ (ids pn : List String) (i : Nat) (vraw : Json) (out : PhaseAVulnerability),
        checkVuln ids pn i vraw = .ok out → out.affectedParams = filterParams pn vraw)
    ∧ (∀ (pn : List String) (vraw : Json),
        (∀ ps, jsFieldD vraw "affectedParams" ≠ Json.arr ps) →
          filterParams pn vraw = []) := by
  refine ⟨?_, ?_, ?_⟩
  · intro s e d h v hv
    obtain ⟨vulns, -, hcheck⟩ := parsePhaseAResponse_ok h
    obtain ⟨j, vr, hcv⟩ := checkVulns_ok_out hcheck v hv
    obtain ⟨-, -, hparams⟩ := checkVuln_ok hcv
    rw [hparams]
    exact filterParams_subset _ vr
  · intro ids pn i vraw out h
    exact (checkVuln_ok h).2.2
  · intro pn vraw h
    unfold filterParams
    cases hf : jsFieldD vraw "affectedParams" with
    | arr ps => exact absurd hf (h ps)
    | null => rfl
    | undefined => rfl
    | bool b => rfl
    | num n => rfl
    | str s => rfl
    | obj l => rfl

/-- Witness for C3: the fabricated name `ssn` is silently dropped — the
accepted finding's affected parameters all belong to the endpoint. -/
theorem c3_witness :
    ∀ v ∈ (PhaseAResponse.mk [⟨"idor", ["API1"], 90, ["userId"], "why"⟩] "sum").vulnerabilities,
      ∀ p ∈ v.affectedParams,
        p ∈ endpointParamNames ⟨"ep2", "get", "/users/id", [⟨"userId"⟩], none, none⟩ :=
  c3_affected_params_filtered.1
    "\x7b\"vulnerabilities\":[\x7b\"name\":\"idor\",\"categories\":[\"API1\"],\"relevanceScore\":90,\"affectedParams\":[\"userId\",\"ssn\"],\"summary\":\"why\"\x7d],\"endpointSummary\":\"sum\"\x7d"
    ⟨"ep2", "get", "/users/id", [⟨"userId"⟩], none, none⟩ _ (by rfl)

/-! ## API summary response validation (`responseParser.ts` lines 146-208)

Note: the source computes `validCategoryIds = getAllCategoryIds()` at
line 168 but never consults it — no check of `categoryId` against the
allow-list is performed in this function; `categoryId` only needs to be
a non-empty string. The embedding reproduces that behaviour. -/

/-- One entry of the summary's testing-category tally. -/
structure TestingCategoryCount where
  categoryId : String
  categoryName : String
  count : Int

/-- A validated API-level summary response. -/
structure APISummaryResponse where
  overview : String
  testingCategories : List TestingCategoryCount

/-- JavaScript falsiness of a parsed JSON value. -/
def jsFalsy (v : Json) : Bool :=
  match v with
  | .null => true
  | .undefined => true
  | .bool b => !b
  | .num n => decide (n = 0)
  | .str s => decide (s = "")
  | _ => false

/-- Lines 169-199: validation of the `i`-th testing-category entry —
truthiness of the entry, non-empty string `categoryId` and
`categoryName`, non-negative numeric `count`. -/
def checkTestingCat (i : Nat) (c : Json) : Except String TestingCategoryCount :=
  if jsFalsy c then .error s!"Risk category {i + 1}: category is null or undefined"
  else
    match jsFieldD c "categoryId" with
    | .str cid =>
      if cid = "" then .error s!"Risk category {i + 1}: missing or invalid categoryId"
      else
        match jsFieldD c "categoryName" with
        | .str cn =>
          if cn = "" then .error s!"Risk category {i + 1}: missing or invalid categoryName"
          else
            match jsFieldD c "count" with
            | .num n =>
              if n < 0 then .error s!"Risk category {i + 1}: invalid count"
              else .ok { categoryId := cid, categoryName := cn, count := n }
            | _ => .error s!"Risk category {i + 1}: invalid count"
        | _ => .error s!"Risk category {i + 1}: missing or invalid categoryName"
    | _ => .error s!"Risk category {i + 1}: missing or invalid categoryId"

/-- The 1-based-indexed loop over `testingCategories`. -/
def checkTestingCats : Nat → List Json → Except String (List TestingCategoryCount)
  | _, [] => .ok []
  | i, c :: cs =>
    match checkTestingCat i c with
    | .error m => .error m
    | .ok out =>
      match checkTestingCats (i + 1) cs with
      | .error m => .error m
      | .ok outs => .ok (out :: outs)

/-- `parseAPISummaryResponse(jsonResponse)`: strip code fences,
`JSON.parse`, require a non-empty string `overview` and a
`testingCategories` array, then validate every entry. -/
def parseAPISummaryResponse (jsonResponse : String) : Except String APISummaryResponse :=
  match jsonParse (stripFences jsonResponse) with
  | .error m => .error m
  | .ok parsed =>
    match jsAccess parsed "overview" with
    | .error m => .error m
    | .ok (.str ov) =>
      if jsTrim ov = "" then .error "Missing or invalid overview"
      else
        match jsFieldD parsed "testingCategories" with
        | .arr cats =>
          match checkTestingCats 0 cats with
          | .error m => .error m
          | .ok outs => .ok { overview := ov, testingCategories := outs }
        | _ => .error "Missing or invalid testingCategories array"
    | .ok _ => .error "Missing or invalid overview"

/-- C9. The claim says an unrecognized `categoryId` in a summary
response is a hard error, but `parseAPISummaryResponse` never consults
the allow-list (the `validCategoryIds` it computes is dead): a summary
whose only entry names the unknown category `API99` is accepted. -/
theorem c9_summary_accepts_unknown_category :
    parseAPISummaryResponse
      "\x7b\"overview\":\"o\",\"testingCategories\":[\x7b\"categoryId\":\"API99\",\"categoryName\":\"X\",\"count\":1\x7d]\x7d"
      = .ok { overview := "o",
              testingCategories := [{ categoryId := "API99", categoryName := "X", count := 1 }] }
    ∧ "API99" ∉ getAllCategoryIds := by
  exact ⟨rfl, by decide⟩

/-! ## Deep-dive response validation (`responseParser.ts` lines 254-360) -/

/-- The sanitization applied to the sample payload body (lines 348-350):
escape angle brackets to prevent HTML injection. -/
def escapeAnglesList : List Char → List Char
  | [] => []
  | c :: rest =>
    if c = '<' then '&' :: 'l' :: 't' :: ';' :: escapeAnglesList rest
    else if c = '>' then '&' :: 'g' :: 't' :: ';' :: escapeAnglesList rest
    else c :: escapeAnglesList rest

/-- `body.replace(/</g, "&lt;").replace(/>/g, "&gt;")`. -/
def escapeAngles (s : String) : String :=
  ⟨escapeAnglesList s.data⟩

/-- Lines 277-311: validation of the `i`-th test scenario — four
non-empty string fields, checked in source order. A `null` scenario
element throws on its first property access. -/
def checkScenario (i : Nat) (sc : Json) : Except String TestScenario :=
  match jsAccess sc "context" with
  | .error m => .error m
  | .ok (.str ctx) =>
    if jsTrim ctx = "" then .error s!"Scenario {i + 1}: missing or invalid context"
    else
      match jsFieldD sc "legitimateRequest" with
      | .str lr =>
        if jsTrim lr = "" then .error s!"Scenario {i + 1}: missing or invalid legitimateRequest"
        else
          match jsFieldD sc "maliciousPayload" with
          | .str mp =>
            if jsTrim mp = "" then .error s!"Scenario {i + 1}: missing or invalid maliciousPayload"
            else
              match jsFieldD sc "explanation" with
              | .str ex =>
                if jsTrim ex = "" then .error s!"Scenario {i + 1}: missing or invalid explanation"
                else .ok { context := ctx, legitimateRequest := lr,
                           maliciousPayload := mp, explanation := ex }
              | _ => .error s!"Scenario {i + 1}: missing or invalid explanation"
          | _ => .error s!"Scenario {i + 1}: missing or invalid maliciousPayload"
      | _ => .error s!"Scenario {i + 1}: missing or invalid legitimateRequest"
  | .ok _ => .error s!"Scenario {i + 1}: missing or invalid context"

/-- The 1-based-indexed loop over `testScenarios`. -/
def checkScenarios : Nat → List Json → Except String (List TestScenario)
  | _, [] => .ok []
  | i, sc :: scs =>
    match checkScenario i sc with
    | .error m => .error m
    | .ok out =>
      match checkScenarios (i + 1) scs with
      | .error m => .error m
      | .ok outs => .ok (out :: outs)

/-- Lines 313-321: the tools list is coerced to empty when not an array,
then filtered to strings with non-empty trim and trimmed. Never an
error. -/
def checkTools (j : Json) : List String :=
  match j with
  | .arr ts =>
    ts.filterMap (fun t =>
      match t with
      | .str s => if jsTrim s = "" then none else some (jsTrim s)
      | _ => none)
  | _ => []

/-- Lines 331-350: the four required string fields of a present sample
payload; the body is angle-escaped. `typeof` of an array is `"object"`,
so an array passes the object test and then fails on its missing
`label`. -/
def checkPayloadFields (sp : Json) : Except String (Option PayloadExample) :=
  match jsFieldD sp "label" with
  | .str lb =>
    if jsTrim lb = "" then .error "samplePayload: missing or invalid label"
    else
      match jsFieldD sp "contentType" with
      | .str ct =>
        if jsTrim ct = "" then .error "samplePayload: missing or invalid contentType"
        else
          match jsFieldD sp "body" with
          | .str bd =>
            if jsTrim bd = "" then .error "samplePayload: missing or invalid body"
            else
              match jsFieldD sp "description" with
              | .str ds =>
                if jsTrim ds = "" then .error "samplePayload: missing or invalid description"
                else .ok (some { label := lb, contentType := ct,
                                 body := escapeAngles bd, description := ds })
              | _ => .error "samplePayload: missing or invalid description"
          | _ => .error "samplePayload: missing or invalid body"
      | _ => .error "samplePayload: missing or invalid contentType"
  | _ => .error "samplePayload: missing or invalid label"

/-- Lines 324-351: an absent (`null`/`undefined`) sample payload is kept
absent; a primitive fails the object test; an object or array has its
fields validated. -/
def checkPayload (sp : Json) : Except String (Option PayloadExample) :=
  match sp with
  | .null => .ok none
  | .undefined => .ok none
  | .bool _ => .error "samplePayload must be an object or null"
  | .num _ => .error "samplePayload must be an object or null"
  | .str _ => .error "samplePayload must be an object or null"
  | .arr l => checkPayloadFields (.arr l)
  | .obj l => checkPayloadFields (.obj l)

/-- `parseDeepDiveResponse(jsonResponse, endpoint)`: strip code fences,
`JSON.parse`, then validate overview, test scenarios, tools and sample
payload in source order. The `endpoint` argument is unused by the
source body and kept for signature fidelity. -/
def parseDeepDiveResponse (jsonResponse : String) (_endpoint : EndpointDetail) :
    Except String DeepDiveResponse :=
  match jsonParse (stripFences jsonResponse) with
  | .error m => .error m
  | .ok parsed =>
    match jsAccess parsed "overview" with
    | .error m => .error m
    | .ok (.str ov) =>
      if jsTrim ov = "" then .error "Missing or invalid overview"
      else
        match jsFieldD parsed "testScenarios" with
        | .arr scs =>
          match checkScenarios 0 scs with
          | .error m => .error m
          | .ok scenarios =>
            match checkPayload (jsFieldD parsed "samplePayload") with
            | .error m => .error m
            | .ok sp =>
              .ok { overview := ov, testScenarios := scenarios,
                    tools := checkTools (jsFieldD parsed "tools"),
                    samplePayload := sp }
        | _ => .error "Missing or invalid testScenarios array"
    | .ok _ => .error "Missing or invalid overview"

/-! ### Every failure message is non-empty

The deep-dive retry logic stores the first failure's message behind a
JavaScript `||` default, which only triggers on an empty string; these
lemmas show validation never produces one. -/

theorem ne_empty_of_append_left {s : String} (t : String) (h : s ≠ "") :
    s ++ t ≠ "" := by
  intro he
  have hd := congrArg String.data he
  simp only [String.data_append] at hd
  exact h (by cases s with | mk d => simp_all)

/-- An interpolated message with a non-empty literal head is non-empty. -/
theorem interp3_ne (a b c : String) (ha : a ≠ "") : a ++ b ++ c ≠ "" :=
  ne_empty_of_append_left c (ne_empty_of_append_left b ha)

theorem jsonParse_error_ne {s : String} {m : String}
    (h : jsonParse s = .error m) : m ≠ "" := by
  unfold jsonParse at h
  repeat' split at h
  all_goals cases h
  all_goals decide

theorem jsAccess_error_ne {v : Json} {k m : String}
    (h : jsAccess v k = .error m) : m ≠ "" := by
  unfold jsAccess at h
  repeat' split at h
  all_goals cases h
  all_goals decide

theorem checkScenario_error_ne {i : Nat} {sc : Json} {m : String}
    (h : checkScenario i sc = .error m) : m ≠ "" := by
  unfold checkScenario at h
  repeat' split at h
  all_goals cases h
  all_goals first
    | decide
    | exact interp3_ne _ _ _ (by decide)
    | solve_by_elim [jsAccess_error_ne]

theorem checkScenarios_error_ne : ∀ (i : Nat) (scs : List Json) (m : String),
    checkScenarios i scs = .error m → m ≠ "" := by
  intro i scs
  induction scs generalizing i with
  | nil => intro m h; unfold checkScenarios at h; cases h
  | cons sc rest ih =>
    intro m h
    unfold checkScenarios at h
    repeat' split at h
    all_goals cases h
    all_goals solve_by_elim [checkScenario_error_ne]

theorem checkPayloadFields_error_ne {sp : Json} {m : String}
    (h : checkPayloadFields sp = .error m) : m ≠ "" := by
  unfold checkPayloadFields at h
  repeat' split at h
  all_goals cases h
  all_goals decide

theorem checkPayload_error_ne {sp : Json} {m : String}
    (h : checkPayload sp = .error m) : m ≠ "" := by
  cases sp with
  | null => unfold checkPayload at h; cases h
  | undefined => unfold checkPayload at h; cases h
  | bool b => unfold checkPayload at h; cases h; decide
  | num n => unfold checkPayload at h; cases h; decide
  | str s => unfold checkPayload at h; cases h; decide
  | arr l => unfold checkPayload at h; exact checkPayloadFields_error_ne h
  | obj l => unfold checkPayload at h; exact checkPayloadFields_error_ne h

theorem parseDeepDiveResponse_error_ne {s : String} {e : EndpointDetail} {m : String}
    (h : parseDeepDiveResponse s e = .error m) : m ≠ "" := by
  unfold parseDeepDiveResponse at h
  repeat' split at h
  all_goals cases h
  all_goals first
    | decide
    | solve_by_elim [jsonParse_error_ne, jsAccess_error_ne, checkScenarios_error_ne,
        checkPayload_error_ne]

/-! ## Deep-dive orchestration (`engine.ts` lines 274-343) -/

/-- The `for` loop of `findEndpointById`: first group containing the id
wins. -/
def findEndpointInGroups : List TagGroup → String → Option EndpointDetail
  | [], _ => none
  | g :: gs, eid =>
    match g.endpoints.find? (fun e => e.id == eid) with
    | some e => some e
    | none => findEndpointInGroups gs eid

/-- `findEndpointById(spec, endpointId)`. -/
def findEndpointById (spec : ParsedSpec) (endpointId : String) : Option EndpointDetail :=
  findEndpointInGroups spec.tagGroups endpointId

/-- `generateDeepDive(gateway, spec, endpointId, vulnId)`: look up the
endpoint and the vulnerability, call the gateway, validate; on a
validation failure retry the identical call once and, if the retry also
fails validation, surface the first attempt's message (the source's
`parsed.error || "Failed to parse response after retry"`). A rejected
gateway promise is caught and its message returned, with no retry. The
two gateway replies are the parameters `call1` and `call2`; prompt
construction does not influence control flow and is omitted. -/
def generateDeepDive (spec : ParsedSpec) (endpointId vulnId : String)
    (call1 call2 : Except String String) : Except String DeepDiveResponse :=
  match findEndpointById spec endpointId with
  | none => .error "Endpoint not found"
  | some endpoint =>
    match endpoint.assessment with
    | none => .error "Vulnerability not found"
    | some a =>
      match a.vulnerabilities.find? (fun v => v.id == vulnId) with
      | none => .error "Vulnerability not found"
      | some _vuln =>
        match call1 with
        | .error e => .error e
        | .ok content =>
          match parseDeepDiveResponse content endpoint with
          | .ok d => .ok d
          | .error e1 =>
            match call2 with
            | .error e2 => .error e2
            | .ok content2 =>
              match parseDeepDiveResponse content2 endpoint with
              | .ok d2 => .ok d2
              | .error _ =>
                .error (if e1 = "" then "Failed to parse response after retry" else e1)

/-- C7. When both lookups succeed: a transport error on the first call
is surfaced as-is and the second reply is never consulted (no retry); a
validation failure followed by a validating retry yields the retry's
data; validation failures on both attempts yield the first attempt's
message, not the retry's. -/
theorem c7_deep_dive_retry (spec : ParsedSpec) (eid vid : String)
    (ep : EndpointDetail) (a : SecurityAssessment) (vuln : PotentialVulnerability)
    (hep : findEndpointById spec eid = some ep)
    (ha : ep.assessment = some a)
    (hv : a.vulnerabilities.find? (fun v => v.id == vid) = some vuln) :
    (∀ (e : String) (c2 c2' : Except String String),
        generateDeepDive spec eid vid (.error e) c2 = .error e ∧
        generateDeepDive spec eid vid (.error e) c2 =
          generateDeepDive spec eid vid (.error e) c2')
    ∧ (∀ (s1 e1 s2 : String) (d2 : DeepDiveResponse),
        parseDeepDiveResponse s1 ep = .error e1 →
        parseDeepDiveResponse s2 ep = .ok d2 →
        generateDeepDive spec eid vid (.ok s1) (.ok s2) = .ok d2)
    ∧ (∀ (s1 e1 s2 e2 : String),
        parseDeepDiveResponse s1 ep = .error e1 →
        parseDeepDiveResponse s2 ep = .error e2 →
        generateDeepDive spec eid vid (.ok s1) (.ok s2) = .error e1) := by
  refine ⟨?_, ?_, ?_⟩
  · intro e c2 c2'
    constructor <;>
      · unfold generateDeepDive
        simp only [hep, ha, hv]
  · intro s1 e1 s2 d2 h1 h2
    unfold generateDeepDive
    simp only [hep, ha, hv, h1, h2]
  · intro s1 e1 s2 e2 h1 h2
    unfold generateDeepDive
    simp only [hep, ha, hv, h1, h2, if_neg (parseDeepDiveResponse_error_ne h1)]

/-- Witness for C7: with a malformed first reply and a well-formed
retry, the deep dive returns the retry's validated data. -/
theorem c7_witness :
    generateDeepDive
      ⟨"T", "D", [⟨"g", [⟨"e1", "get", "/x", [], none,
        some ⟨[⟨"v1", "n", ["API2"], 50, [], none⟩], "t"⟩⟩]⟩]⟩
      "e1" "v1" (.ok "not json")
      (.ok "\x7b\"overview\":\"o\",\"testScenarios\":[],\"tools\":[],\"samplePayload\":null\x7d")
      = .ok ⟨"o", [], [], none⟩ :=
  (c7_deep_dive_retry
      ⟨"T", "D", [⟨"g", [⟨"e1", "get", "/x", [], none,
        some ⟨[⟨"v1", "n", ["API2"], 50, [], none⟩], "t"⟩⟩]⟩]⟩
      "e1" "v1"
      ⟨"e1", "get", "/x", [], none, some ⟨[⟨"v1", "n", ["API2"], 50, [], none⟩], "t"⟩⟩
      ⟨[⟨"v1", "n", ["API2"], 50, [], none⟩], "t"⟩
      ⟨"v1", "n", ["API2"], 50, [], none⟩
      (by rfl) (by rfl) (by rfl)).2.1
    "not json" jsonSyntaxErrorMsg
    "\x7b\"overview\":\"o\",\"testScenarios\":[],\"tools\":[],\"samplePayload\":null\x7d"
    ⟨"o", [], [], none⟩ (by rfl) (by rfl)

/-! ## LLM gateway error normalization (`llm/gateway.ts` lines 52-162) -/

/-- The fixed taxonomy of normalized gateway errors. -/
inductive LLMErrorType where
  | auth_error
  | rate_limit
  | model_not_found
  | invalid_request
  | server_error
  | network_error
  deriving DecidableEq

/-- A normalized gateway error: replacement message, taxonomy type,
retryability. -/
structure LLMError where
  message : String
  type : LLMErrorType
  retryable : Bool

/-- Is `p` a prefix of the second list? -/
def hasPrefixChars : List Char → List Char → Bool
  | [], _ => true
  | _ :: _, [] => false
  | a :: as, b :: bs => a == b && hasPrefixChars as bs

/-- Does `sub` occur contiguously anywhere in the second list? -/
def hasInfixChars (sub : List Char) : List Char → Bool
  | [] => hasPrefixChars sub []
  | b :: bs => hasPrefixChars sub (b :: bs) || hasInfixChars sub bs

/-- JavaScript `errorMessage.includes(sub)`: substring containment. -/
def jsIncludes (s sub : String) : Bool :=
  hasInfixChars sub.data s.data

/-- The authentication-error pattern group (lines 59-67). -/
def authPattern (m : String) : Bool :=
  jsIncludes m "401" || jsIncludes m "403" || jsIncludes m "unauthorized" ||
    jsIncludes m "forbidden" || jsIncludes m "authentication" ||
    jsIncludes m "invalid api key" || jsIncludes m "api key"

/-- The rate-limit pattern group (lines 77-82). -/
def rateLimitPattern (m : String) : Bool :=
  jsIncludes m "429" || jsIncludes m "rate limit" ||
    jsIncludes m "rate_limit_exceeded" || jsIncludes m "quota exceeded"

/-- The model-not-found pattern group (lines 92-96). -/
def modelNotFoundPattern (m : String) : Bool :=
  jsIncludes m "404" || jsIncludes m "model not found" || jsIncludes m "invalid model"

/-- The invalid-request pattern group (lines 106-109). -/
def invalidRequestPattern (m : String) : Bool :=
  jsIncludes m "400" || jsIncludes m "invalid request" || jsIncludes m "bad request"

/-- The server-error pattern group (lines 120-128). -/
def serverErrorPattern (m : String) : Bool :=
  jsIncludes m "500" || jsIncludes m "502" || jsIncludes m "503" ||
    jsIncludes m "504" || jsIncludes m "server error" ||
    jsIncludes m "internal server error" || jsIncludes m "bad gateway" ||
    jsIncludes m "service unavailable"

/-- The network-error pattern group (lines 139-145). -/
def networkErrorPattern (m : String) : Bool :=
  jsIncludes m "ECONNREFUSED" || jsIncludes m "ENOTFOUND" ||
    jsIncludes m "ETIMEDOUT" || jsIncludes m "network" ||
    jsIncludes m "fetch" || jsIncludes m "connection"

/-- True when any of the six pattern groups matches. -/
def anyPattern (m : String) : Bool :=
  authPattern m || rateLimitPattern m || modelNotFoundPattern m ||
    invalidRequestPattern m || serverErrorPattern m || networkErrorPattern m

/-- `normalizeError(error, provider)`: classify the caught error's
message by the first matching pattern group, attaching the replacement
message and the retryable flag; anything unmatched becomes a retryable
`server_error`. The argument is the extracted `errorMessage`. -/
def normalizeError (errorMessage : String) (provider : String) : LLMError :=
  if authPattern errorMessage then
    { message := "Invalid API key for " ++ provider ++ ". Please check your LLM_API_KEY.",
      type := .auth_error, retryable := false }
  else if rateLimitPattern errorMessage then
    { message := "Rate limit exceeded for " ++ provider ++ ". Please try again later.",
      type := .rate_limit, retryable := true }
  else if modelNotFoundPattern errorMessage then
    { message := "Model not found for " ++ provider ++ ". Please check your LLM_MODEL setting.",
      type := .model_not_found, retryable := false }
  else if invalidRequestPattern errorMessage then
    { message := "Invalid request to " ++ provider ++ ": " ++ errorMessage,
      type := .invalid_request, retryable := false }
  else if serverErrorPattern errorMessage then
    { message := "Server error from " ++ provider ++ ". Please try again later.",
      type := .server_error, retryable := true }
  else if networkErrorPattern errorMessage then
    { message := "Network error connecting to " ++ provider ++ ". Please check your internet connection.",
      type := .network_error, retryable := true }
  else
    { message := "Error from " ++ provider ++ ": " ++ errorMessage,
      type := .server_error, retryable := true }

/-- C8. `normalizeError` is total and always lands in the six-type
taxonomy; the result is retryable exactly when its type is rate limit,
server error or network error; and a message matching none of the
pattern groups falls back to a retryable server error. -/
theorem c8_normalize_error_taxonomy (m provider : String) :
    ((normalizeError m provider).type ∈
      [LLMErrorType.auth_error, .rate_limit, .model_not_found,
       .invalid_request, .server_error, .network_error])
    ∧ ((normalizeError m provider).retryable = true ↔
        (normalizeError m provider).type ∈
          [LLMErrorType.rate_limit, .server_error, .network_error])
    ∧ (anyPattern m = false →
        (normalizeError m provider).type = .server_error ∧
        (normalizeError m provider).retryable = true) := by
  refine ⟨?_, ?_, ?_⟩
  · unfold normalizeError
    split_ifs <;> simp
  · unfold normalizeError
    split_ifs <;> simp
  · intro hnone
    simp only [anyPattern, Bool.or_eq_false_iff] at hnone
    obtain ⟨⟨⟨⟨⟨ha, hr⟩, hm⟩, hi⟩, hs⟩, hn⟩ := hnone
    unfold normalizeError
    simp [ha, hr, hm, hi, hs, hn]

/-- Witness for C8: the message `quota exceeded for key` matches the
rate-limit group, and an unclassifiable message falls back to a
retryable server error. -/
theorem c8_witness :
    ((normalizeError "quota exceeded for key" "openai").retryable = true ↔
      (normalizeError "quota exceeded for key" "openai").type ∈
        [LLMErrorType.rate_limit, .server_error, .network_error])
    ∧ ((normalizeError "boom" "openai").type = .server_error ∧
        (normalizeError "boom" "openai").retryable = true) :=
  ⟨(c8_normalize_error_taxonomy "quota exceeded for key" "openai").2.1,
   (c8_normalize_error_taxonomy "boom" "openai").2.2 (by decide)⟩

/-! ## Batch orchestration (`engine.ts` lines 20-269)

The loop `for (i = 0; i < endpoints.length; i += concurrencyLimit)`
processes consecutive windows of `concurrencyLimit` endpoints,
`Promise.all`-barriered. The only nondeterminism is the order in which
the calls of one window resolve; it is modelled by a schedule: one
permutation of each window. The shared `completed` counter advances per
resolution, and `Promise.all` returns the window's results in window
order regardless of resolution order. -/

/-- `toPotentialVulnerability(phaseAVuln, index)` (responseParser.ts
lines 213-225); `Date.now()` is the parameter `now`. -/
def toPotentialVulnerability (v : PhaseAVulnerability) (index : Nat) (now : Nat) :
    PotentialVulnerability :=
  { id := "vuln-" ++ toString now ++ "-" ++ toString index,
    name := v.name, categories := v.categories,
    relevanceScore := v.relevanceScore,
    affectedParams := v.affectedParams, deepDive := none }

/-- Insertion step of the stable descending sort: `x` goes before the
first element whose score is not greater, so earlier elements win ties. -/
def insertByScore (x : PhaseAVulnerability) : List PhaseAVulnerability →
    List PhaseAVulnerability
  | [] => [x]
  | y :: rest =>
    if x.relevanceScore < y.relevanceScore then y :: insertByScore x rest
    else x :: y :: rest

/-- `vulnerabilities.sort((a, b) => b.relevanceScore - a.relevanceScore)`:
a stable sort by relevance score descending (ES2019 guarantees
stability), modelled as insertion sort. -/
def sortByScoreDesc : List PhaseAVulnerability → List PhaseAVulnerability
  | [] => []
  | x :: rest => insertByScore x (sortByScoreDesc rest)

/-- `map` with the element index, as in `sortedVulns.map((v, i) => ...)`. -/
def mapWithIndex (f : PhaseAVulnerability → Nat → PotentialVulnerability) :
    Nat → List PhaseAVulnerability → List PotentialVulnerability
  | _, [] => []
  | i, v :: vs => f v i :: mapWithIndex f (i + 1) vs

/-- `EndpointAnalysisResult` (engine.ts lines 31-36). -/
structure EndpointAnalysisResult where
  endpointId : String
  success : Bool
  assessment : Option SecurityAssessment
  error : Option String

/-- `analyzeEndpoint(gateway, endpoint)` (lines 51-104): call the
gateway (`gw` maps the endpoint to its reply or its thrown message),
validate, sort the findings by score descending, assign synthetic ids.
Gateway rejections and parse failures both yield a failed result; the
batch-level prompt text does not influence control flow and is
omitted. -/
def analyzeEndpoint (gw : EndpointDetail → Except String String) (now : Nat)
    (nowIso : String) (endpoint : EndpointDetail) : EndpointAnalysisResult :=
  match gw endpoint with
  | .error msg =>
    { endpointId := endpoint.id, success := false, assessment := none, error := some msg }
  | .ok content =>
    match parsePhaseAResponse content endpoint with
    | .error err =>
      { endpointId := endpoint.id, success := false, assessment := none,
        error := some (if err = "" then "Failed to parse response" else err) }
    | .ok data =>
      { endpointId := endpoint.id, success := true,
        assessment := some
          { vulnerabilities :=
              mapWithIndex (fun v i => toPotentialVulnerability v i now) 0
                (sortByScoreDesc data.vulnerabilities),
            analyzedAt := nowIso },
        error := none }

/-- The tagged progress events fed to the SSE callback (lines 23-26). -/
inductive AnalysisEvent where
  | progress (completed total : Nat) (currentEndpoint : String)
  | endpoint_complete (endpointId : String) (assessment : Option SecurityAssessment)
  | error (endpointId : String) (msg : String)
  | summary_complete (summary : APISummaryResponse)
  | complete (totalScenarios totalEndpoints : Nat)

/-- `${endpoint.method.toUpperCase()} ${endpoint.path}` (line 204). -/
def endpointLabel (e : EndpointDetail) : String :=
  e.method.toUpper ++ " " ++ e.path

/-- JavaScript `o || dflt` on an optional string. -/
def jsOrDefault (o : Option String) (dflt : String) : String :=
  match o with
  | some s => if s = "" then dflt else s
  | none => dflt

/-- The two events a finishing endpoint emits (lines 199-224): a
`progress` event with the post-increment counter, then either
`endpoint_complete` or `error`. -/
def endpointEvents (completed total : Nat)
    (p : EndpointDetail × EndpointAnalysisResult) : List AnalysisEvent :=
  AnalysisEvent.progress completed total (endpointLabel p.1) ::
    (if p.2.success then [AnalysisEvent.endpoint_complete p.1.id p.2.assessment]
     else [AnalysisEvent.error p.1.id (jsOrDefault p.2.error "Unknown error")])

/-- Emit the events of one window in resolution order, threading the
shared `completed` counter. -/
def emitOrdered (total : Nat) : Nat → List (EndpointDetail × EndpointAnalysisResult) →
    List AnalysisEvent
  | _, [] => []
  | cb, p :: rest => endpointEvents (cb + 1) total p ++ emitOrdered total (cb + 1) rest

/-- Reorder a window by a resolution schedule (indices into the window). -/
def applySched (sched : List Nat) (l : List α) : List α :=
  sched.filterMap (fun j => l.get? j)

/-- `endpoints.slice(i, i + concurrencyLimit)` windowing (lines 192-193),
fuel-indexed for structural recursion; `windowsOf` supplies enough fuel. -/
def windowsOfAux (K : Nat) : Nat → List α → List (List α)
  | _, [] => []
  | 0, _ :: _ => []
  | fuel + 1, l@(_ :: _) => l.take K :: windowsOfAux K fuel (l.drop K)

/-- The consecutive windows of size `K` (the last window holds the
remainder). -/
def windowsOf (K : Nat) (l : List α) : List (List α) :=
  windowsOfAux K l.length l

/-- The window loop (lines 192-231): per window, analyze every endpoint,
emit each endpoint's events in resolution order, and append the
window's results in window order (`Promise.all`). -/
def runWindows (f : EndpointDetail → EndpointAnalysisResult) (total : Nat) :
    List (List EndpointDetail) → List (List Nat) → Nat →
      List AnalysisEvent × List EndpointAnalysisResult
  | [], _, _ => ([], [])
  | w :: ws, scheds, cb =>
    let pairs := w.map (fun e => (e, f e))
    let ordered := applySched (scheds.headD (List.range w.length)) pairs
    let rest := runWindows f total ws scheds.tail (cb + ordered.length)
    (emitOrdered total cb ordered ++ rest.1, pairs.map (·.2) ++ rest.2)

/-- `AnalysisResult` (engine.ts lines 41-46). -/
structure AnalysisResult where
  results : List EndpointAnalysisResult
  apiSummary : Option APISummaryResponse
  totalScenarios : Nat
  failedEndpoints : Nat

/-- `generateAPISummary` (lines 109-174): one best-effort gateway call
(`summaryResp` is its reply or its thrown message, which the source
catches and logs); a validated reply emits `summary_complete` and is
returned, any failure yields `null`. The condensed prompt input does
not influence control flow and is omitted. -/
def generateAPISummary (summaryResp : Except String String) :
    List AnalysisEvent × Option APISummaryResponse :=
  match summaryResp with
  | .error _ => ([], none)
  | .ok content =>
    match parseAPISummaryResponse content with
    | .ok d => ([AnalysisEvent.summary_complete d], some d)
    | .error _ => ([], none)

/-- Does the summary call fail (transport or validation)? -/
def summaryFailed (r : Except String String) : Bool :=
  match r with
  | .error _ => true
  | .ok c =>
    match parseAPISummaryResponse c with
    | .error _ => true
    | .ok _ => false

/-- `endpoints = spec.tagGroups.flatMap(g => g.endpoints)` (line 187). -/
def endpointsOf (spec : ParsedSpec) : List EndpointDetail :=
  spec.tagGroups.flatMap (·.endpoints)

/-- `analyzeSpec(gateway, spec, onProgress, concurrencyLimit)` (lines
179-269; the source defaults `concurrencyLimit` to 3): run the windowed
batch, total the findings over all results, attempt the best-effort
summary, emit the terminal `complete` event last, and return the
aggregate. Events are returned as the ordered trace the callback
receives. -/
def analyzeSpec (gw : EndpointDetail → Except String String)
    (summaryResp : Except String String) (spec : ParsedSpec)
    (scheds : List (List Nat)) (K : Nat) (now : Nat) (nowIso : String) :
    List AnalysisEvent × AnalysisResult :=
  let endpoints := endpointsOf spec
  let total := endpoints.length
  let wr := runWindows (analyzeEndpoint gw now nowIso) total (windowsOf K endpoints) scheds 0
  let totalVulns := wr.2.foldl
    (fun acc r => acc + (match r.assessment with
      | some a => a.vulnerabilities.length
      | none => 0)) 0
  let sum := generateAPISummary summaryResp
  (wr.1 ++ sum.1 ++ [AnalysisEvent.complete totalVulns total],
   { results := wr.2, apiSummary := sum.2, totalScenarios := totalVulns,
     failedEndpoints := (wr.2.filter (fun r => !r.success)).length })

/-- A schedule is valid when it pairs every window with a permutation of
that window's index range. -/
def ValidScheds (scheds : List (List Nat)) (ws : List (List EndpointDetail)) : Prop :=
  List.Forall₂ (fun sc (w : List EndpointDetail) => sc.Perm (List.range w.length)) scheds ws

/-- Events consuming one endpoint's outcome. -/
def isTerminalEvent : AnalysisEvent → Bool
  | .endpoint_complete _ _ => true
  | .error _ _ => true
  | _ => false

/-- The terminal `complete` event. -/
def isCompleteEvent : AnalysisEvent → Bool
  | .complete _ _ => true
  | _ => false

/-! ### Window structure lemmas -/

theorem windowsOfAux_flatten {K : Nat} (hK : 0 < K) :
    ∀ (fuel : Nat) (l : List α), l.length ≤ fuel →
      (windowsOfAux K fuel l).flatten = l := by
  intro fuel
  induction fuel with
  | zero =>
    intro l hl
    cases l with
    | nil => rfl
    | cons a rest => simp at hl
  | succ fuel ih =>
    intro l hl
    cases l with
    | nil => rfl
    | cons a rest =>
      have hdrop : ((a :: rest).drop K).length ≤ fuel := by
        rw [List.length_drop]
        simp only [List.length_cons] at hl ⊢
        omega
      show ((a :: rest).take K :: windowsOfAux K fuel ((a :: rest).drop K)).flatten = a :: rest
      rw [List.flatten_cons, ih _ hdrop, List.take_append_drop]

theorem windowsOfAux_eq_nil {K : Nat} :
    ∀ (fuel : Nat) (l : List α), l.length ≤ fuel →
      (windowsOfAux K fuel l = [] ↔ l = []) := by
  intro fuel l hl
  cases fuel with
  | zero =>
    cases l with
    | nil => simp [windowsOfAux]
    | cons a rest => simp at hl
  | succ fuel =>
    cases l with
    | nil => simp [windowsOfAux]
    | cons a rest => simp [windowsOfAux]

theorem windowsOfAux_sizes {K : Nat} (hK : 0 < K) :
    ∀ (fuel : Nat) (l : List α), l.length ≤ fuel →
      ∀ w ∈ windowsOfAux K fuel l, w ≠ [] ∧ w.length ≤ K := by
  intro fuel
  induction fuel with
  | zero =>
    intro l hl w hw
    cases l with
    | nil => cases hw
    | cons a rest => simp at hl
  | succ fuel ih =>
    intro l hl w hw
    cases l with
    | nil => cases hw
    | cons a rest =>
      have hdrop : ((a :: rest).drop K).length ≤ fuel := by
        rw [List.length_drop]
        simp only [List.length_cons] at hl ⊢
        omega
      have hw' : w ∈ (a :: rest).take K :: windowsOfAux K fuel ((a :: rest).drop K) := hw
      rcases List.mem_cons.mp hw' with rfl | hmem
      · constructor
        · have hlen : ((a :: rest).take K).length = min K (a :: rest).length := by
            simp [List.length_take]
          intro hnil
          rw [hnil] at hlen
          simp only [List.length_nil, List.length_cons] at hlen
          omega
        · rw [List.length_take]
          exact min_le_left _ _
      · exact ih _ hdrop w hmem

theorem windowsOfAux_dropLast {K : Nat} (hK : 0 < K) :
    ∀ (fuel : Nat) (l : List α), l.length ≤ fuel →
      ∀ w ∈ (windowsOfAux K fuel l).dropLast, w.length = K := by
  intro fuel
  induction fuel with
  | zero =>
    intro l hl w hw
    cases l with
    | nil => cases hw
    | cons a rest => simp at hl
  | succ fuel ih =>
    intro l hl w hw
    cases l with
    | nil => cases hw
    | cons a rest =>
      have hdrop : ((a :: rest).drop K).length ≤ fuel := by
        rw [List.length_drop]
        simp only [List.length_cons] at hl ⊢
        omega
      have hw' : w ∈ ((a :: rest).take K :: windowsOfAux K fuel ((a :: rest).drop K)).dropLast := hw
      cases hrest : windowsOfAux K fuel ((a :: rest).drop K) with
      | nil => rw [hrest] at hw'; cases hw'
      | cons b bs =>
        rw [hrest] at hw'
        rw [List.dropLast_cons₂] at hw'
        rcases List.mem_cons.mp hw' with rfl | hmem
        · have hne : (a :: rest).drop K ≠ [] := by
            intro hnil
            rw [hnil] at hrest
            simp [windowsOfAux] at hrest
          have hlong : K < (a :: rest).length := by
            by_contra hle
            push_neg at hle
            exact hne (List.drop_eq_nil_of_le hle)
          rw [List.length_take]
          omega
        · have := ih _ hdrop w
          rw [hrest] at this
          exact this hmem

/-! ### Event counting lemmas -/

theorem endpointEvents_countP_terminal (completed total : Nat)
    (p : EndpointDetail × EndpointAnalysisResult) :
    (endpointEvents completed total p).countP isTerminalEvent = 1 := by
  unfold endpointEvents
  split <;> simp [List.countP_cons, isTerminalEvent]

theorem endpointEvents_countP_complete (completed total : Nat)
    (p : EndpointDetail × EndpointAnalysisResult) :
    (endpointEvents completed total p).countP isCompleteEvent = 0 := by
  unfold endpointEvents
  split <;> simp [List.countP_cons, isCompleteEvent]

theorem emitOrdered_countP_terminal (total : Nat) :
    ∀ (ordered : List (EndpointDetail × EndpointAnalysisResult)) (cb : Nat),
      (emitOrdered total cb ordered).countP isTerminalEvent = ordered.length := by
  intro ordered
  induction ordered with
  | nil => intro cb; rfl
  | cons p rest ih =>
    intro cb
    show ((endpointEvents (cb + 1) total p ++ emitOrdered total (cb + 1) rest).countP
      isTerminalEvent) = rest.length + 1
    rw [List.countP_append, endpointEvents_countP_terminal, ih]
    omega

theorem emitOrdered_countP_complete (total : Nat) :
    ∀ (ordered : List (EndpointDetail × EndpointAnalysisResult)) (cb : Nat),
      (emitOrdered total cb ordered).countP isCompleteEvent = 0 := by
  intro ordered
  induction ordered with
  | nil => intro cb; rfl
  | cons p rest ih =>
    intro cb
    show ((endpointEvents (cb + 1) total p ++ emitOrdered total (cb + 1) rest).countP
      isCompleteEvent) = 0
    rw [List.countP_append, endpointEvents_countP_complete, ih]

theorem filterMap_get_length {l : List α} :
    ∀ sched : List Nat, (∀ j ∈ sched, j < l.length) →
      (sched.filterMap (fun j => l.get? j)).length = sched.length := by
  intro sched
  induction sched with
  | nil => intro hlt; rfl
  | cons j rest ih =>
    intro hlt
    have hj : j < l.length := hlt j (List.mem_cons_self j rest)
    cases hg : l.get? j with
    | none =>
      exfalso
      exact absurd (List.get?_eq_get hj) (by rw [hg]; simp)
    | some a =>
      simp only [List.filterMap_cons, hg]
      rw [List.length_cons, List.length_cons,
        ih (fun j hj => hlt j (List.mem_cons_of_mem _ hj))]

theorem applySched_length {sched : List Nat} {l : List α}
    (h : sched.Perm (List.range l.length)) :
    (applySched sched l).length = l.length := by
  have hlt : ∀ j ∈ sched, j < l.length := by
    intro j hj
    exact List.mem_range.mp (h.mem_iff.mp hj)
  have hlen : (applySched sched l).length = sched.length :=
    filterMap_get_length sched hlt
  rw [hlen, h.length_eq, List.length_range]

theorem mem_applySched {sched : List Nat} {l : List α} {a : α}
    (ha : a ∈ l) (h : sched.Perm (List.range l.length)) :
    a ∈ applySched sched l := by
  obtain ⟨n, hn⟩ := List.get_of_mem ha
  have hmem : n.1 ∈ sched := h.mem_iff.mpr (List.mem_range.mpr n.2)
  refine List.mem_filterMap.mpr ⟨n.1, hmem, ?_⟩
  rw [List.get?_eq_get n.2, hn]

theorem runWindows_counts (f : EndpointDetail → EndpointAnalysisResult) (total : Nat) :
    ∀ {scheds : List (List Nat)} {ws : List (List EndpointDetail)},
      ValidScheds scheds ws → ∀ cb : Nat,
      ((runWindows f total ws scheds cb).1.countP isTerminalEvent = ws.flatten.length)
      ∧ ((runWindows f total ws scheds cb).1.countP isCompleteEvent = 0) := by
  intro scheds ws hv
  induction hv with
  | nil => intro cb; exact ⟨rfl, rfl⟩
  | @cons sc w scs ws' h₁ h₂ ih =>
    intro cb
    have hord : (applySched sc (w.map (fun e => (e, f e)))).length = w.length := by
      have hperm : sc.Perm (List.range (w.map (fun e => (e, f e))).length) := by
        rw [List.length_map]; exact h₁
      rw [applySched_length hperm, List.length_map]
    constructor
    · simp only [runWindows, List.headD_cons, List.tail_cons]
      rw [List.countP_append, emitOrdered_countP_terminal, hord]
      rw [(ih _).1]
      simp [List.length_append]
    · simp only [runWindows, List.headD_cons, List.tail_cons]
      rw [List.countP_append, emitOrdered_countP_complete]
      rw [(ih _).2]

theorem runWindows_results (f : EndpointDetail → EndpointAnalysisResult) (total : Nat) :
    ∀ (ws : List (List EndpointDetail)) (scheds : List (List Nat)) (cb : Nat),
      (runWindows f total ws scheds cb).2 = ws.flatten.map f := by
  intro ws
  induction ws with
  | nil => intro scheds cb; rfl
  | cons w ws' ih =>
    intro scheds cb
    simp only [runWindows]
    rw [ih]
    simp [List.map_map, Function.comp]

theorem emitOrdered_error_mem (total : Nat) :
    ∀ (ordered : List (EndpointDetail × EndpointAnalysisResult)) (cb : Nat)
      (p : EndpointDetail × EndpointAnalysisResult),
      p ∈ ordered → p.2.success = false →
      AnalysisEvent.error p.1.id (jsOrDefault p.2.error "Unknown error") ∈
        emitOrdered total cb ordered := by
  intro ordered
  induction ordered with
  | nil => intro cb p hp; cases hp
  | cons q rest ih =>
    intro cb p hp hs
    rcases List.mem_cons.mp hp with rfl | hmem
    · refine List.mem_append_left _ ?_
      simp [endpointEvents, hs]
    · exact List.mem_append_right _ (ih (cb + 1) p hmem hs)

theorem runWindows_error_mem (f : EndpointDetail → EndpointAnalysisResult) (total : Nat) :
    ∀ {scheds : List (List Nat)} {ws : List (List EndpointDetail)},
      ValidScheds scheds ws → ∀ (cb : Nat) (e : EndpointDetail),
      e ∈ ws.flatten → (f e).success = false →
      AnalysisEvent.error e.id (jsOrDefault (f e).error "Unknown error") ∈
        (runWindows f total ws scheds cb).1 := by
  intro scheds ws hv
  induction hv with
  | nil => intro cb e he; cases he
  | @cons sc w scs ws' h₁ h₂ ih =>
    intro cb e he hs
    simp only [runWindows, List.headD_cons, List.tail_cons]
    rw [List.flatten_cons] at he
    rcases List.mem_append.mp he with hin | hin
    · refine List.mem_append_left _ ?_
      have hperm : sc.Perm (List.range (w.map (fun x => (x, f x))).length) := by
        rw [List.length_map]; exact h₁
      have hpair : (e, f e) ∈ w.map (fun x => (x, f x)) :=
        List.mem_map_of_mem (fun x => (x, f x)) hin
      exact emitOrdered_error_mem total _ cb (e, f e)
        (mem_applySched hpair hperm) hs
    · exact List.mem_append_right _ (ih _ e hin hs)

theorem generateAPISummary_counts (r : Except String String) :
    (generateAPISummary r).1.countP isTerminalEvent = 0
    ∧ (generateAPISummary r).1.countP isCompleteEvent = 0 := by
  unfold generateAPISummary
  cases r with
  | error m => exact ⟨rfl, rfl⟩
  | ok c =>
    cases hp : parseAPISummaryResponse c with
    | error m =>
      constructor <;>
        simp [hp, isTerminalEvent, isCompleteEvent, List.countP_cons, List.countP_nil]
    | ok d =>
      constructor <;>
        simp [hp, isTerminalEvent, isCompleteEvent, List.countP_cons, List.countP_nil]

theorem generateAPISummary_failed {r : Except String String}
    (h : summaryFailed r = true) : (generateAPISummary r).2 = none := by
  unfold summaryFailed at h
  unfold generateAPISummary
  cases r with
  | error m => rfl
  | ok c =>
    cases hp : parseAPISummaryResponse c with
    | error m => simp [hp]
    | ok d => simp [hp] at h

/-- The trace of a run is the window events, then the summary events,
then one terminal `complete` event. -/
theorem analyzeSpec_trace (gw : EndpointDetail → Except String String)
    (sr : Except String String) (spec : ParsedSpec) (scheds : List (List Nat))
    (K now : Nat) (nowIso : String) :
    ∃ tv, (analyzeSpec gw sr spec scheds K now nowIso).1
      = (runWindows (analyzeEndpoint gw now nowIso) (endpointsOf spec).length
          (windowsOf K (endpointsOf spec)) scheds 0).1
        ++ (generateAPISummary sr).1
        ++ [AnalysisEvent.complete tv (endpointsOf spec).length] :=
  ⟨_, rfl⟩

/-- C4. With a positive concurrency limit and any valid resolution
schedule: the endpoint list is processed as its consecutive windows of
size `K` (they concatenate back to the list, all but the last have size
exactly `K`, every window is non-empty of size at most `K`); the trace
carries exactly one `endpoint_complete`-or-`error` event per endpoint
(their count equals the endpoint count); and exactly one `complete`
event, which is the last event of the trace and reports the total
endpoint count. -/
theorem c4_windowed_batching (gw : EndpointDetail → Except String String)
    (summaryResp : Except String String) (spec : ParsedSpec)
    (scheds : List (List Nat)) (K now : Nat) (nowIso : String)
    (hK : 0 < K) (hs : ValidScheds scheds (windowsOf K (endpointsOf spec))) :
    ((windowsOf K (endpointsOf spec)).flatten = endpointsOf spec)
    ∧ (∀ w ∈ (windowsOf K (endpointsOf spec)).dropLast, w.length = K)
    ∧ (∀ w ∈ windowsOf K (endpointsOf spec), w ≠ [] ∧ w.length ≤ K)
    ∧ ((analyzeSpec gw summaryResp spec scheds K now nowIso).1.countP isTerminalEvent
        = (endpointsOf spec).length)
    ∧ ((analyzeSpec gw summaryResp spec scheds K now nowIso).1.countP isCompleteEvent = 1)
    ∧ (∃ tv, (analyzeSpec gw summaryResp spec scheds K now nowIso).1.getLast?
        = some (AnalysisEvent.complete tv (endpointsOf spec).length)) := by
  have hflat : (windowsOf K (endpointsOf spec)).flatten = endpointsOf spec :=
    windowsOfAux_flatten hK _ _ le_rfl
  obtain ⟨tv, htr⟩ := analyzeSpec_trace gw summaryResp spec scheds K now nowIso
  refine ⟨hflat, windowsOfAux_dropLast hK _ _ le_rfl,
    windowsOfAux_sizes hK _ _ le_rfl, ?_, ?_, ?_⟩
  · rw [htr, List.countP_append, List.countP_append,
      (runWindows_counts _ _ hs 0).1, hflat,
      (generateAPISummary_counts summaryResp).1]
    rfl
  · rw [htr, List.countP_append, List.countP_append,
      (runWindows_counts _ _ hs 0).2,
      (generateAPISummary_counts summaryResp).2]
    rfl
  · refine ⟨tv, ?_⟩
    rw [htr, List.getLast?_concat]

/-- C5. With a positive concurrency limit and any valid schedule: the
returned per-endpoint results are exactly each endpoint's own analysis
outcome in order (so one endpoint's failure never prevents the others
from being analyzed); every failed endpoint is reported through an
`error` event carrying its id; a failed summary call (transport or
validation) only makes `apiSummary` null; and the run still ends with
its terminal `complete` event. -/
theorem c5_failure_isolation (gw : EndpointDetail → Except String String)
    (summaryResp : Except String String) (spec : ParsedSpec)
    (scheds : List (List Nat)) (K now : Nat) (nowIso : String)
    (hK : 0 < K) (hs : ValidScheds scheds (windowsOf K (endpointsOf spec))) :
    ((analyzeSpec gw summaryResp spec scheds K now nowIso).2.results
      = (endpointsOf spec).map (analyzeEndpoint gw now nowIso))
    ∧ (∀ e ∈ endpointsOf spec, (analyzeEndpoint gw now nowIso e).success = false →
        ∃ msg, AnalysisEvent.error e.id msg ∈
          (analyzeSpec gw summaryResp spec scheds K now nowIso).1)
    ∧ (summaryFailed summaryResp = true →
        (analyzeSpec gw summaryResp spec scheds K now nowIso).2.apiSummary = none)
    ∧ (∃ tv, (analyzeSpec gw summaryResp spec scheds K now nowIso).1.getLast?
        = some (AnalysisEvent.complete tv (endpointsOf spec).length)) := by
  have hflat : (windowsOf K (endpointsOf spec)).flatten = endpointsOf spec :=
    windowsOfAux_flatten hK _ _ le_rfl
  obtain ⟨tv, htr⟩ := analyzeSpec_trace gw summaryResp spec scheds K now nowIso
  refine ⟨?_, ?_, ?_, ?_⟩
  · show (runWindows (analyzeEndpoint gw now nowIso) (endpointsOf spec).length
      (windowsOf K (endpointsOf spec)) scheds 0).2 = _
    rw [runWindows_results, hflat]
  · intro e he hfail
    refine ⟨jsOrDefault (analyzeEndpoint gw now nowIso e).error "Unknown error", ?_⟩
    rw [htr]
    refine List.mem_append_left _ (List.mem_append_left _ ?_)
    have he' : e ∈ (windowsOf K (endpointsOf spec)).flatten := by rw [hflat]; exact he
    exact runWindows_error_mem _ _ hs 0 e he' hfail
  · intro hfail
    show (generateAPISummary summaryResp).2 = none
    exact generateAPISummary_failed hfail
  · refine ⟨tv, ?_⟩
    rw [htr, List.getLast?_concat]

/-- Witness for C4: 10 endpoints at concurrency 3 give windows of sizes
`[3, 3, 3, 1]`; with every call failing, the run still counts exactly 10
terminal events and ends with one `complete` event reporting 10. -/
theorem c4_witness :
    ((windowsOf 3 (endpointsOf
        ⟨"T", "D", [⟨"g", (List.range 10).map
          (fun n => ⟨toString n, "get", "/p", [], none, none⟩)⟩]⟩)).map List.length
      = [3, 3, 3, 1])
    ∧ ((analyzeSpec (fun _ => .error "boom") (.error "x")
        ⟨"T", "D", [⟨"g", (List.range 10).map
          (fun n => ⟨toString n, "get", "/p", [], none, none⟩)⟩]⟩
        [[0, 1, 2], [2, 0, 1], [0, 1, 2], [0]] 3 0 "t").1.countP isTerminalEvent = 10)
    ∧ ((analyzeSpec (fun _ => .error "boom") (.error "x")
        ⟨"T", "D", [⟨"g", (List.range 10).map
          (fun n => ⟨toString n, "get", "/p", [], none, none⟩)⟩]⟩
        [[0, 1, 2], [2, 0, 1], [0, 1, 2], [0]] 3 0 "t").1.countP isCompleteEvent = 1)
    ∧ (∃ tv, (analyzeSpec (fun _ => .error "boom") (.error "x")
        ⟨"T", "D", [⟨"g", (List.range 10).map
          (fun n => ⟨toString n, "get", "/p", [], none, none⟩)⟩]⟩
        [[0, 1, 2], [2, 0, 1], [0, 1, 2], [0]] 3 0 "t").1.getLast?
      = some (AnalysisEvent.complete tv 10)) := by
  have h := c4_windowed_batching (fun _ => .error "boom") (.error "x")
    ⟨"T", "D", [⟨"g", (List.range 10).map
      (fun n => ⟨toString n, "get", "/p", [], none, none⟩)⟩]⟩
    [[0, 1, 2], [2, 0, 1], [0, 1, 2], [0]] 3 0 "t" (by decide)
    (by unfold ValidScheds
        exact List.Forall₂.cons (by decide)
          (List.Forall₂.cons (by decide)
            (List.Forall₂.cons (by decide)
              (List.Forall₂.cons (by decide) List.Forall₂.nil))))
  exact ⟨by rfl, h.2.2.2.1, h.2.2.2.2.1, h.2.2.2.2.2⟩

/-- Witness for C5: endpoint `a` fails while endpoint `b` validates; the
results list still covers both, an `error` event names `a`, the failed
summary only nulls `apiSummary`, and `complete` still fires. -/
theorem c5_witness :
    (∃ msg, AnalysisEvent.error "a" msg ∈
      (analyzeSpec
        (fun e => if e.id == "a" then .error "boom"
          else .ok "\x7b\"vulnerabilities\":[],\"endpointSummary\":\"ok\"\x7d")
        (.error "down")
        ⟨"T", "D", [⟨"g", [⟨"a", "get", "/a", [], none, none⟩,
                           ⟨"b", "get", "/b", [], none, none⟩]⟩]⟩
        [[1, 0]] 3 0 "t").1)
    ∧ ((analyzeSpec
        (fun e => if e.id == "a" then .error "boom"
          else .ok "\x7b\"vulnerabilities\":[],\"endpointSummary\":\"ok\"\x7d")
        (.error "down")
        ⟨"T", "D", [⟨"g", [⟨"a", "get", "/a", [], none, none⟩,
                           ⟨"b", "get", "/b", [], none, none⟩]⟩]⟩
        [[1, 0]] 3 0 "t").2.apiSummary = none)
    ∧ (∃ tv, (analyzeSpec
        (fun e => if e.id == "a" then .error "boom"
          else .ok "\x7b\"vulnerabilities\":[],\"endpointSummary\":\"ok\"\x7d")
        (.error "down")
        ⟨"T", "D", [⟨"g", [⟨"a", "get", "/a", [], none, none⟩,
                           ⟨"b", "get", "/b", [], none, none⟩]⟩]⟩
        [[1, 0]] 3 0 "t").1.getLast? = some (AnalysisEvent.complete tv 2)) := by
  have h := c5_failure_isolation
    (fun e => if e.id == "a" then .error "boom"
      else .ok "\x7b\"vulnerabilities\":[],\"endpointSummary\":\"ok\"\x7d")
    (.error "down")
    ⟨"T", "D", [⟨"g", [⟨"a", "get", "/a", [], none, none⟩,
                       ⟨"b", "get", "/b", [], none, none⟩]⟩]⟩
    [[1, 0]] 3 0 "t" (by decide)
    (by unfold ValidScheds
        exact List.Forall₂.cons (by decide) List.Forall₂.nil)
  exact ⟨h.2.1 ⟨"a", "get", "/a", [], none, none⟩ (List.Mem.head _) (by rfl),
    h.2.2.1 (by rfl), h.2.2.2⟩

/-! ## The scan route state machine (`routes/analyze.ts`)

`POST /api/analyze`: the module-level `currentAnalysis` record is the
process-wide run flag. The handler checks the gateway, then rejects with
409 while a run is in flight, then validates the spec; otherwise it
marks the run started, awaits `analyzeSpec` inside `try/catch`, and a
`finally` always clears the flag and stamps `completedAt`. The awaited
analysis outcome (resolved events or a thrown error) is the `analysis`
parameter; timestamps are the parameters `t1`, `t2`. -/

/-- The module-level `currentAnalysis` record. -/
structure AnalysisRunState where
  isRunning : Bool
  startedAt : Option String
  specHash : Option String
  completedAt : Option String

/-- The handler's observable reply. -/
inductive ScanResponse where
  | badRequest (msg : String)
  | conflict
  | streamed (events : List AnalysisEvent) (crashed : Bool)

/-- Lines 128-130: mark the run started before any asynchronous work. -/
def markRunning (st : AnalysisRunState) (t1 : String) : AnalysisRunState :=
  { st with isRunning := true, startedAt := some t1, completedAt := none }

/-- Lines 170-174 (the `finally` block): clear the flag and stamp the
completion time on every exit path. -/
def markComplete (st : AnalysisRunState) (t2 : String) : AnalysisRunState :=
  { st with isRunning := false, completedAt := some t2 }

/-- The `POST /api/analyze` handler. Returns the new run state, the
reply, and whether analysis work was started. -/
def runScan (gatewayAvailable specOk : Bool) (st : AnalysisRunState)
    (analysis : Except String (List AnalysisEvent × AnalysisResult)) (t1 t2 : String) :
    AnalysisRunState × ScanResponse × Bool :=
  if !gatewayAvailable then
    (st, .badRequest "No LLM provider configured. Set LLM_PROVIDER and LLM_API_KEY in .env",
     false)
  else if st.isRunning then (st, .conflict, false)
  else if !specOk then (st, .badRequest "Invalid spec format", false)
  else
    let running := markRunning st t1
    match analysis with
    | .ok (events, _result) => (markComplete running t2, .streamed events false, true)
    | .error _ => (markComplete running t2, .streamed [] true, true)

/-- C6. With the gateway configured: a request while the running flag is
set returns the conflict reply, starts no analysis and leaves the state
untouched; any request that proceeds runs with the flag set
(`markRunning`), and — whether the awaited analysis resolves or throws —
finishes with the flag cleared and `completedAt` stamped, back at
idle. -/
theorem c6_scan_run_state_machine :
    (∀ (g specOk : Bool) (st : AnalysisRunState)
        (analysis : Except String (List AnalysisEvent × AnalysisResult)) (t1 t2 : String),
        g = true → st.isRunning = true →
        runScan g specOk st analysis t1 t2 = (st, ScanResponse.conflict, false))
    ∧ (∀ (st : AnalysisRunState)
        (analysis : Except String (List AnalysisEvent × AnalysisResult)) (t1 t2 : String),
        st.isRunning = false →
        (markRunning st t1).isRunning = true
        ∧ (runScan true true st analysis t1 t2).1.isRunning = false
        ∧ (runScan true true st analysis t1 t2).1.completedAt = some t2
        ∧ (runScan true true st analysis t1 t2).2.2 = true) := by
  constructor
  · intro g specOk st analysis t1 t2 hg hrun
    subst hg
    simp [runScan, hrun]
  · intro st analysis t1 t2 hidle
    refine ⟨rfl, ?_, ?_, ?_⟩ <;>
      · cases analysis with
        | ok p => simp [runScan, hidle, markComplete, markRunning]
        | error m => simp [runScan, hidle, markComplete, markRunning]

/-- Witness for C6: a concrete conflict rejection while running, and a
concrete run (here a thrown analysis) that ends back at idle with
`completedAt` stamped. -/
theorem c6_witness :
    (runScan true true ⟨true, some "s", none, none⟩ (.error "boom") "t1" "t2"
      = (⟨true, some "s", none, none⟩, ScanResponse.conflict, false))
    ∧ ((runScan true true ⟨false, none, none, none⟩ (.error "boom") "t1" "t2").1.isRunning
        = false)
    ∧ ((runScan true true ⟨false, none, none, none⟩ (.error "boom") "t1" "t2").1.completedAt
        = some "t2") :=
  ⟨c6_scan_run_state_machine.1 true true ⟨true, some "s", none, none⟩ (.error "boom")
      "t1" "t2" rfl rfl,
   (c6_scan_run_state_machine.2 ⟨false, none, none, none⟩ (.error "boom") "t1" "t2" rfl).2.1,
   (c6_scan_run_state_machine.2 ⟨false, none, none, none⟩ (.error "boom") "t1" "t2" rfl).2.2.1⟩

/-! ## Global fence deletion (C10)

`hasTriple l` holds when three consecutive backticks occur anywhere in
`l`; the stripping pipeline leaves no such occurrence, wherever the
fence markers sat in the input. -/

/-- Is the first character a backtick? -/
def headBt : List Char → Bool
  | a :: _ => a == btick
  | [] => false

/-- Are the first two characters backticks? -/
def head2Bt : List Char → Bool
  | a :: b :: _ => a == btick && b == btick
  | _ => false

/-- Does a run of three consecutive backticks occur anywhere? -/
def hasTriple : List Char → Bool
  | a :: b :: c :: rest =>
    if a = btick ∧ b = btick ∧ c = btick then true else hasTriple (b :: c :: rest)
  | _ => false
  termination_by structural l => l

theorem head2Bt_cons_elim {c : Char} {l : List Char}
    (h : head2Bt (c :: l) = true) : c = btick ∧ headBt l = true := by
  cases l with
  | nil => cases h
  | cons a r =>
    simp only [head2Bt, Bool.and_eq_true, beq_iff_eq] at h
    exact ⟨h.1, by simp [headBt, h.2]⟩

theorem headBt_removeFence : ∀ l, headBt (removeFence l) = true → headBt l = true := by
  intro l
  induction l using removeFence.induct with
  | case1 c1 c2 c3 rest hg ih =>
    intro _
    simp [headBt, hg.1]
  | case2 c1 c2 c3 rest hg ih =>
    intro h
    rw [removeFence.eq_1, if_neg hg] at h
    simpa [headBt] using h
  | case3 c1 c2 c3 rest hne hg ih =>
    intro _
    simp [headBt, hg.1]
  | case4 c1 c2 c3 rest hne hg ih =>
    intro h
    rw [removeFence.eq_2 _ _ _ _ hne, if_neg hg] at h
    simpa [headBt] using h
  | case5 c rest hne1 hne2 ih =>
    intro h
    rw [removeFence.eq_3 _ _ hne1 hne2] at h
    simpa [headBt] using h
  | case6 => intro h; exact h

theorem head2Bt_removeFence : ∀ l, head2Bt (removeFence l) = true → head2Bt l = true := by
  intro l
  induction l using removeFence.induct with
  | case1 c1 c2 c3 rest hg ih =>
    intro _
    simp [head2Bt, hg.1, hg.2.1]
  | case2 c1 c2 c3 rest hg ih =>
    intro h
    rw [removeFence.eq_1, if_neg hg] at h
    obtain ⟨h1, h2⟩ := head2Bt_cons_elim h
    have h3 := headBt_removeFence _ h2
    simp only [headBt, beq_iff_eq] at h3
    simp [head2Bt, h1, h3]
  | case3 c1 c2 c3 rest hne hg ih =>
    intro _
    simp [head2Bt, hg.1, hg.2.1]
  | case4 c1 c2 c3 rest hne hg ih =>
    intro h
    rw [removeFence.eq_2 _ _ _ _ hne, if_neg hg] at h
    obtain ⟨h1, h2⟩ := head2Bt_cons_elim h
    have h3 := headBt_removeFence _ h2
    simp only [headBt, beq_iff_eq] at h3
    simp [head2Bt, h1, h3]
  | case5 c rest hne1 hne2 ih =>
    intro h
    rw [removeFence.eq_3 _ _ hne1 hne2] at h
    obtain ⟨h1, h2⟩ := head2Bt_cons_elim h
    have h3 := headBt_removeFence _ h2
    cases rest with
    | nil => cases h3
    | cons a r2 =>
      simp only [headBt, beq_iff_eq] at h3
      simp [head2Bt, h1, h3]
  | case6 => intro h; exact h

theorem hasTriple_cons_elim {c : Char} {l : List Char}
    (h : hasTriple (c :: l) = true) :
    (c = btick ∧ head2Bt l = true) ∨ hasTriple l = true := by
  cases l with
  | nil => cases h
  | cons a r =>
    cases r with
    | nil => cases h
    | cons b r2 =>
      by_cases hg : c = btick ∧ a = btick ∧ b = btick
      · exact Or.inl ⟨hg.1, by simp [head2Bt, hg.2.1, hg.2.2]⟩
      · refine Or.inr ?_
        have heq : hasTriple (c :: a :: b :: r2) = hasTriple (a :: b :: r2) := by
          show (if c = btick ∧ a = btick ∧ b = btick then true
            else hasTriple (a :: b :: r2)) = _
          rw [if_neg hg]
        rwa [heq] at h

theorem hasTriple_cons_intro {l : List Char} (h : hasTriple l = true) (c : Char) :
    hasTriple (c :: l) = true := by
  cases l with
  | nil => cases h
  | cons a r =>
    cases r with
    | nil => cases h
    | cons b r2 =>
      show (if c = btick ∧ a = btick ∧ b = btick then true
        else hasTriple (a :: b :: r2)) = true
      split
      · rfl
      · exact h

theorem hasTriple_removeFence : ∀ l, hasTriple (removeFence l) = false := by
  intro l
  induction l using removeFence.induct with
  | case1 c1 c2 c3 rest hg ih =>
    rw [removeFence.eq_1, if_pos hg]
    exact ih
  | case2 c1 c2 c3 rest hg ih =>
    rw [removeFence.eq_1, if_neg hg]
    cases hres : hasTriple (c1 :: removeFence (c2 :: c3 :: '\n' :: rest)) with
    | false => rfl
    | true =>
      exfalso
      rcases hasTriple_cons_elim hres with ⟨h1, h2⟩ | h2
      · have h3 := head2Bt_removeFence _ h2
        obtain ⟨h4, h5⟩ := head2Bt_cons_elim h3
        simp only [headBt, beq_iff_eq] at h5
        exact hg ⟨h1, h4, h5⟩
      · rw [ih] at h2; cases h2
  | case3 c1 c2 c3 rest hne hg ih =>
    rw [removeFence.eq_2 _ _ _ _ hne, if_pos hg]
    exact ih
  | case4 c1 c2 c3 rest hne hg ih =>
    rw [removeFence.eq_2 _ _ _ _ hne, if_neg hg]
    cases hres : hasTriple (c1 :: removeFence (c2 :: c3 :: rest)) with
    | false => rfl
    | true =>
      exfalso
      rcases hasTriple_cons_elim hres with ⟨h1, h2⟩ | h2
      · have h3 := head2Bt_removeFence _ h2
        obtain ⟨h4, h5⟩ := head2Bt_cons_elim h3
        simp only [headBt, beq_iff_eq] at h5
        exact hg ⟨h1, h4, h5⟩
      · rw [ih] at h2; cases h2
  | case5 c rest hne1 hne2 ih =>
    rw [removeFence.eq_3 _ _ hne1 hne2]
    cases hres : hasTriple (c :: removeFence rest) with
    | false => rfl
    | true =>
      exfalso
      rcases hasTriple_cons_elim hres with ⟨h1, h2⟩ | h2
      · have h3 := head2Bt_removeFence _ h2
        cases rest with
        | nil => cases h3
        | cons a r2 =>
          cases r2 with
          | nil => cases h3
          | cons b r3 => exact hne2 a b r3 rfl
      · rw [ih] at h2; cases h2
  | case6 => rfl

theorem hasTriple_decomp : ∀ l, hasTriple l = true →
    ∃ p q, l = p ++ btick :: btick :: btick :: q := by
  intro l
  induction l using hasTriple.induct with
  | case1 a b c rest hg =>
    intro _
    obtain ⟨ha, hb, hc⟩ := hg
    subst ha; subst hb; subst hc
    exact ⟨[], rest, rfl⟩
  | case2 a b c rest hg ih =>
    intro h
    have heq : hasTriple (a :: b :: c :: rest) = hasTriple (b :: c :: rest) := by
      show (if a = btick ∧ b = btick ∧ c = btick then true
        else hasTriple (b :: c :: rest)) = _
      rw [if_neg hg]
    rw [heq] at h
    obtain ⟨p, q, hpq⟩ := ih h
    exact ⟨a :: p, q, by rw [List.cons_append, ← hpq]⟩
  | case3 l hne =>
    intro h
    cases l with
    | nil => cases h
    | cons a r =>
      cases r with
      | nil => cases h
      | cons b r2 =>
        cases r2 with
        | nil => cases h
        | cons c r3 => exact (hne a b c r3 rfl).elim

theorem hasTriple_of_decomp : ∀ p q : List Char,
    hasTriple (p ++ btick :: btick :: btick :: q) = true := by
  intro p q
  induction p with
  | nil =>
    show (if btick = btick ∧ btick = btick ∧ btick = btick then true
      else hasTriple (btick :: btick :: q)) = true
    rw [if_pos ⟨rfl, rfl, rfl⟩]
  | cons c p' ih =>
    rw [List.cons_append]
    exact hasTriple_cons_intro ih c

theorem dropWhile_suffix_ex (p : Char → Bool) :
    ∀ l : List Char, ∃ a, l = a ++ l.dropWhile p := by
  intro l
  induction l with
  | nil => exact ⟨[], rfl⟩
  | cons c rest ih =>
    by_cases hc : p c = true
    · obtain ⟨a, ha⟩ := ih
      refine ⟨c :: a, ?_⟩
      rw [List.dropWhile_cons, if_pos hc, List.cons_append, ← ha]
    · refine ⟨[], ?_⟩
      rw [List.dropWhile_cons, if_neg hc, List.nil_append]

theorem jsTrimList_decomp (l : List Char) : ∃ a b, l = a ++ jsTrimList l ++ b := by
  obtain ⟨a, ha⟩ := dropWhile_suffix_ex isWsChar l
  obtain ⟨b, hb⟩ := dropWhile_suffix_ex isWsChar (l.dropWhile isWsChar).reverse
  refine ⟨a, b.reverse, ?_⟩
  have hmid : l.dropWhile isWsChar = jsTrimList l ++ b.reverse := by
    calc l.dropWhile isWsChar
        = ((l.dropWhile isWsChar).reverse).reverse := (List.reverse_reverse _).symm
      _ = (b ++ (l.dropWhile isWsChar).reverse.dropWhile isWsChar).reverse := by
          rw [← hb]
      _ = jsTrimList l ++ b.reverse := by
          rw [List.reverse_append]; rfl
  rw [List.append_assoc, ← hmid]
  exact ha

theorem hasTriple_jsTrimList {l : List Char} (h : hasTriple l = false) :
    hasTriple (jsTrimList l) = false := by
  cases hres : hasTriple (jsTrimList l) with
  | false => rfl
  | true =>
    exfalso
    obtain ⟨p, q, hpq⟩ := hasTriple_decomp _ hres
    obtain ⟨a, b, hab⟩ := jsTrimList_decomp l
    rw [hpq] at hab
    have htrue : hasTriple l = true := by
      rw [hab]
      simpa [List.append_assoc] using hasTriple_of_decomp (a ++ p) (q ++ b)
    rw [h] at htrue
    cases htrue

/-- C10. The code-fence stripping deletes every fence occurrence
anywhere in the text: no run of three backticks survives `stripFences`
for any input. Consequently, a response whose `endpointSummary` JSON
string itself contains backtick fences is accepted with those fences
deleted: the parsed result (`"use code here"`) differs from the value
the payload itself carries (`"use ```code``` here"`, the third
conjunct) by exactly the deleted substrings. -/
theorem c10_fence_stripping_global :
    (∀ s : String, hasTriple (stripFences s).data = false)
    ∧ (parsePhaseAResponse
        "\x7b\"vulnerabilities\":[],\"endpointSummary\":\"use ```code``` here\"\x7d"
        ⟨"ep", "get", "/x", [], none, none⟩
        = .ok { vulnerabilities := [], endpointSummary := "use code here" })
    ∧ (jsonParse
        "\x7b\"vulnerabilities\":[],\"endpointSummary\":\"use ```code``` here\"\x7d"
        = .ok (Json.obj [("vulnerabilities", Json.arr []),
            ("endpointSummary", Json.str "use ```code``` here")])) := by
  refine ⟨?_, rfl, rfl⟩
  intro s
  show hasTriple (jsTrimList (removeFence (removeFenceJson s.data))) = false
  exact hasTriple_jsTrimList (hasTriple_removeFence _)

end ReconSpec
